import Mathlib

/-!
Verification of the device-session lifecycle manager in
`acts/framework/acts/controllers/android_device.py`.

The Python module is shallowly embedded: Python dicts become association
lists that keep insertion order (as Python 3 dicts do), external
collaborators (the adb/fastboot channels, the sl4a protocol client, the
event-dispatcher module, the `acts.logger` timestamp helpers) become
explicit oracle parameters or, where the repository does not ship their
code, definitions modelled from the specification and marked as such.
Exceptions become `Except`/`Option` results; where Python code mutates
state and then raises, the model returns the mutated state next to the
error so that caught exceptions keep their side effects.
-/

set_option maxRecDepth 10000

namespace AndroidDeviceModel

/-- Association-list lookup, first binding wins: Python `d[k]` / `k in d`. -/
def alookup {α β : Type} [DecidableEq α] (k : α) : List (α × β) → Option β
  | [] => none
  | (k2, v) :: rest => if k = k2 then some v else alookup k rest

/-- The keys of an association list, in insertion order (Python `list(d)`). -/
def akeys {α β : Type} : List (α × β) → List α :=
  List.map Prod.fst

/-- Python `d[k] = v`: replace the binding in place if the key is present,
append otherwise (Python 3 dicts preserve insertion order). -/
def aset {α β : Type} [DecidableEq α] (k : α) (v : β) : List (α × β) → List (α × β)
  | [] => [(k, v)]
  | (k2, v2) :: rest => if k = k2 then (k, v) :: rest else (k2, v2) :: aset k v rest

/-- Python `del d[k]`: drop the binding for `k`, keeping the order of the rest. -/
def aerase {α β : Type} [DecidableEq α] (k : α) : List (α × β) → List (α × β) :=
  List.filter (fun p => decide (p.1 ≠ k))

@[simp] theorem alookup_nil {α β : Type} [DecidableEq α] (k : α) :
    alookup (β := β) k [] = none := rfl

@[simp] theorem alookup_cons {α β : Type} [DecidableEq α] (k k2 : α) (v : β)
    (rest : List (α × β)) :
    alookup k ((k2, v) :: rest) = if k = k2 then some v else alookup k rest := rfl

@[simp] theorem akeys_nil {α β : Type} : akeys ([] : List (α × β)) = [] := rfl

@[simp] theorem akeys_cons {α β : Type} (p : α × β) (rest : List (α × β)) :
    akeys (p :: rest) = p.1 :: akeys rest := rfl

theorem alookup_aset_self {α β : Type} [DecidableEq α] (k : α) (v : β) :
    ∀ l : List (α × β), alookup k (aset k v l) = some v := by
  intro l
  induction l with
  | nil => simp [aset, alookup]
  | cons p rest ih =>
    obtain ⟨k2, v2⟩ := p
    by_cases h : k = k2 <;> simp [aset, alookup, h, ih]

theorem alookup_aset_other {α β : Type} [DecidableEq α] (k k2 : α) (v : β)
    (h : k2 ≠ k) : ∀ l : List (α × β), alookup k2 (aset k v l) = alookup k2 l := by
  intro l
  induction l with
  | nil => simp [aset, alookup, h]
  | cons p rest ih =>
    obtain ⟨k3, v3⟩ := p
    by_cases h3 : k = k3
    · subst h3; simp [aset, alookup, h]
    · by_cases h4 : k2 = k3 <;> simp [aset, alookup, h3, h4, ih]

theorem alookup_eq_none_of_not_mem_akeys {α β : Type} [DecidableEq α] (k : α)
    {l : List (α × β)} (h : k ∉ akeys l) : alookup k l = none := by
  induction l with
  | nil => rfl
  | cons p rest ih =>
    obtain ⟨k2, v2⟩ := p
    simp only [akeys_cons, List.mem_cons, not_or] at h
    simp [alookup, h.1, ih h.2]

theorem mem_akeys_of_alookup {α β : Type} [DecidableEq α] {k : α} {v : β}
    {l : List (α × β)} (h : alookup k l = some v) : k ∈ akeys l := by
  induction l with
  | nil => simp [alookup] at h
  | cons p rest ih =>
    obtain ⟨k2, v2⟩ := p
    by_cases h2 : k = k2
    · subst h2; simp
    · simp only [alookup_cons, if_neg h2] at h
      simpa using Or.inr (ih h)

/-! ### Insertion sort, modelling Python `sorted()` on dict keys -/

/-- Insert into a sorted list, preserving relative order (Python sort is
stable and ascending). -/
def insertLe {α : Type} (le : α → α → Bool) (x : α) : List α → List α
  | [] => [x]
  | y :: ys => if le x y then x :: y :: ys else y :: insertLe le x ys

/-- Python `sorted(l)` with comparison `le`. -/
def isort {α : Type} (le : α → α → Bool) : List α → List α
  | [] => []
  | x :: xs => insertLe le x (isort le xs)

theorem mem_insertLe {α : Type} (le : α → α → Bool) (x a : α) :
    ∀ l : List α, a ∈ insertLe le x l ↔ a = x ∨ a ∈ l := by
  intro l
  induction l with
  | nil => simp [insertLe]
  | cons y ys ih =>
    by_cases h : le x y
    · simp [insertLe, h]
    · simp only [insertLe, if_neg h, List.mem_cons, ih]
      tauto

theorem mem_isort {α : Type} (le : α → α → Bool) (a : α) :
    ∀ l : List α, a ∈ isort le l ↔ a ∈ l := by
  intro l
  induction l with
  | nil => simp [isort]
  | cons x xs ih => simp [isort, mem_insertLe, ih]

theorem isort_eq_nil_iff {α : Type} (le : α → α → Bool) :
    ∀ l : List α, isort le l = [] ↔ l = [] := by
  intro l
  cases l with
  | nil => simp [isort]
  | cons x xs =>
    simp only [isort]
    constructor
    · intro h
      have : x ∈ insertLe le x (isort le xs) := by
        rw [mem_insertLe]; exact Or.inl rfl
      rw [h] at this
      cases this
    · intro h; cases h

/-- The head of an insertion sort is a `le`-lower bound of the whole list,
provided `le` is total and transitive. -/
theorem isort_head_le {α : Type} (le : α → α → Bool)
    (htot : ∀ a b, le a b = true ∨ le b a = true)
    (htrans : ∀ a b c, le a b = true → le b c = true → le a c = true) :
    ∀ (l : List α) (h : α) (t : List α), isort le l = h :: t →
      ∀ x ∈ l, le h x = true := by
  intro l
  induction l with
  | nil => intro h t hst; cases hst
  | cons y ys ih =>
    intro h t hst x hx
    simp only [isort] at hst
    rcases hsort : isort le ys with _ | ⟨z, zs⟩
    · rw [hsort] at hst
      simp only [insertLe] at hst
      cases hst
      have : ys = [] := (isort_eq_nil_iff le ys).mp hsort
      subst this
      rcases List.mem_cons.mp hx with rfl | hx
      · rcases htot x x with hh | hh <;> exact hh
      · cases hx
    · rw [hsort] at hst
      by_cases hle : le y z
      · simp only [insertLe, if_pos hle] at hst
        cases hst
        rcases List.mem_cons.mp hx with rfl | hx
        · rcases htot x x with hh | hh <;> exact hh
        · exact htrans _ _ _ hle (ih z zs hsort x hx)
      · simp only [insertLe, if_neg hle] at hst
        cases hst
        rcases List.mem_cons.mp hx with rfl | hx
        · rcases htot h x with hh | hh
          · exact hh
          · exact absurd hh (by simpa using hle)
        · exact ih h zs hsort x hx

/-- Members survive sorting; with a nonempty list the sort is a cons. -/
theorem isort_ne_nil {α : Type} (le : α → α → Bool) {l : List α} (h : l ≠ []) :
    isort le l ≠ [] := by
  intro hc
  exact h ((isort_eq_nil_iff le l).mp hc)

/-! ### Python string primitives

CPython strings are sequences of code points; the operations the source
uses (`strip`, `split`, `replace`, slicing, `<` on strings) are embedded
here over `List Char` so that they evaluate by kernel reduction. -/

/-- The characters Python `str.strip()` removes. -/
def pyIsSpace (c : Char) : Bool :=
  c = ' ' ∨ c = '\t' ∨ c = '\n' ∨ c = '\r' ∨ c = '\x0b' ∨ c = '\x0c'

/-- Python `s.strip()`. -/
def pyStrip (s : String) : String :=
  ⟨((s.data.dropWhile pyIsSpace).reverse.dropWhile pyIsSpace).reverse⟩

/-- Python `s.split(sep)` for a single-character separator (the source
splits on tab and newline only): every occurrence splits, empty parts
kept. -/
def pySplit (s : String) (sep : Char) : List String :=
  (s.data.splitOn sep).map String.mk

/-- Replacing every (non-overlapping, leftmost-first) occurrence of a
nonempty pattern in a character list, Python `str.replace` semantics.
Each step consumes at least one character, so a fuel of the list's length
suffices; the fuel makes the recursion structural. -/
def replaceL (pat rep : List Char) : Nat → List Char → List Char
  | _, [] => []
  | 0, l => l
  | fuel + 1, c :: rest =>
    if pat.isPrefixOf (c :: rest) then
      rep ++ replaceL pat rep fuel ((c :: rest).drop pat.length)
    else c :: replaceL pat rep fuel rest

/-- Python `s.replace(pat, rep)` for a nonempty pattern. -/
def pyReplace (s pat rep : String) : String :=
  ⟨replaceL pat.data rep.data s.data.length s.data⟩

/-- Python `s[:n]` for a nonnegative bound. -/
def pyTake (s : String) (n : Nat) : String :=
  ⟨s.data.take n⟩

/-- Python `s[:n]` for a possibly negative bound (a negative bound drops
that many characters from the end). -/
def pySliceTo (s : String) (n : Int) : String :=
  if 0 ≤ n then pyTake s n.toNat else pyTake s (s.data.length - n.natAbs)

/-- Python `s.endswith(t)`. -/
def pyEndsWith (s t : String) : Bool :=
  t.data.isSuffixOf s.data

/-- Lexicographic code-point comparison on character lists: Python `<=`
on strings. -/
def lexLe : List Char → List Char → Bool
  | [], _ => true
  | _ :: _, [] => false
  | a :: as, b :: bs =>
    if a < b then true
    else if b < a then false
    else lexLe as bs

/-- Python `a <= b` on strings. -/
def strLe (a b : String) : Bool :=
  lexLe a.data b.data

theorem lexLe_total : ∀ as bs : List Char, lexLe as bs = true ∨ lexLe bs as = true := by
  intro as
  induction as with
  | nil => intro bs; exact Or.inl rfl
  | cons a as ih =>
    intro bs
    cases bs with
    | nil => exact Or.inr rfl
    | cons b bs =>
      by_cases hab : a < b
      · left; simp [lexLe, hab]
      · by_cases hba : b < a
        · right; simp [lexLe, hba, asymm hba]
        · have : ¬ a < b ∧ ¬ b < a := ⟨hab, hba⟩
          rcases ih bs with h | h
          · left; simp [lexLe, hab, hba, h]
          · right; simp [lexLe, hab, hba, h]

theorem lexLe_trans : ∀ as bs cs : List Char,
    lexLe as bs = true → lexLe bs cs = true → lexLe as cs = true := by
  intro as
  induction as with
  | nil => intro bs cs _ _; rfl
  | cons a as ih =>
    intro bs cs h1 h2
    cases bs with
    | nil => simp [lexLe] at h1
    | cons b bs =>
      cases cs with
      | nil => simp [lexLe] at h2
      | cons c cs =>
        simp only [lexLe] at h1 h2 ⊢
        by_cases hab : a < b
        · by_cases hbc : b < c
          · have hac : a < c := lt_trans hab hbc
            simp [hac]
          · by_cases hcb : c < b
            · simp [hbc, hcb] at h2
            · have hbc2 : b = c := le_antisymm (not_lt.mp hcb) (not_lt.mp hbc)
              subst hbc2
              simp [hab]
        · by_cases hba : b < a
          · simp [hab, hba] at h1
          · have hab2 : a = b := le_antisymm (not_lt.mp hba) (not_lt.mp hab)
            subst hab2
            by_cases hac : a < c
            · simp [hac]
            · by_cases hca : c < a
              · simp [hac, hca] at h2
              · simp only [if_neg hac, if_neg hca]
                simp only [if_neg hab, if_neg hba] at h1
                simp only [if_neg hac, if_neg hca] at h2
                exact ih bs cs h1 h2

theorem strLe_total (a b : String) : strLe a b = true ∨ strLe b a = true :=
  lexLe_total a.data b.data

theorem strLe_trans (a b c : String) :
    strLe a b = true → strLe b c = true → strLe a c = true :=
  lexLe_trans a.data b.data c.data

/-! ### Data model: connections, dispatchers, per-device state -/

/-- An sl4a `android.Android` protocol connection.  `uid` is the
server-assigned session id it belongs to; `connId` is a creation token
that distinguishes distinct connection objects (Python object identity). -/
structure Conn where
  uid : Nat
  connId : Nat
deriving DecidableEq, Repr, Inhabited

/-- An `event_dispatcher.EventDispatcher`, owning one auxiliary connection.
Modelled from the spec: the event-dispatcher module is not under `src/`;
per the spec it is created from one dedicated auxiliary connection and its
`clean_up()` closes that connection. -/
structure Dispatcher where
  conn : Conn
deriving DecidableEq, Repr, Inhabited

/-- The sl4a-related state of one `AndroidDevice`.

`droid_sessions` embeds `self._droid_sessions` (uid to ordered connection
list), `event_dispatchers` embeds `self._event_dispatchers` (string key
`serial + str(uid)` to the stored value, which in Python could in
principle be `None`).  `closed` records the connection ids on which
`closeSl4aSession`/`close`/dispatcher `clean_up` has been called, and
`removed_forwards` the host ports passed to `adb forward --remove`. -/
structure ADState where
  serial : String
  h_port : Option Nat
  d_port : Nat
  nextConnId : Nat
  droid_sessions : List (Nat × List Conn)
  event_dispatchers : List (String × Option Dispatcher)
  closed : List Nat
  removed_forwards : List Nat
deriving DecidableEq, Repr, Inhabited

/-- Python truthiness of the `h_port` attribute (`None` and `0` are falsy). -/
def truthyPort : Option Nat → Bool
  | none => false
  | some p => decide (p ≠ 0)

/-- The `_event_dispatchers` key for a session: `self.serial + str(session_id)`. -/
def ed_key (serial : String) (session_id : Nat) : String :=
  serial ++ toString session_id

/-- `AndroidDevice.start_new_session`.  The external sl4a server is the
parameter `r`: `none` models the `android.Android()` constructor failing
to connect, `some uid` a successful connection whose server-assigned uid
is `uid`.  Mirrors the source: construct the connection, raise
`SL4AException` on a uid collision, otherwise register `[droid]`. -/
def start_new_session (r : Option Nat) (st : ADState) : ADState × Except String Conn :=
  match r with
  | none => (st, .error "sl4a connection failed")
  | some uid =>
    let droid : Conn := ⟨uid, st.nextConnId⟩
    let st1 := { st with nextConnId := st.nextConnId + 1 }
    if uid ∈ akeys st1.droid_sessions then
      (st1, .error "SL4A returned an existing uid for a new session. Abort.")
    else
      ({ st1 with droid_sessions := aset uid [droid] st1.droid_sessions }, .ok droid)

/-- `AndroidDevice.add_new_connection_to_session`.  Checks local existence
first (`DoesNotExistError`), then constructs the auxiliary connection
(`connectFails` models the constructor failing to reach the server).
Note: the source returns the new connection without appending it to
`self._droid_sessions[session_id]`. -/
def add_new_connection_to_session (connectFails : Bool) (session_id : Nat)
    (st : ADState) : ADState × Except String Conn :=
  if session_id ∉ akeys st.droid_sessions then
    (st, .error ("Session " ++ toString session_id ++ " does not exist."))
  else if connectFails then
    (st, .error "sl4a connection failed")
  else
    ({ st with nextConnId := st.nextConnId + 1 }, .ok ⟨session_id, st.nextConnId⟩)

/-- `AndroidDevice.get_dispatcher`: return the cached dispatcher for
`serial + str(droid.uid)` if present (raising if the cached value is
`None`), otherwise attach a new auxiliary connection, wrap and cache it. -/
def get_dispatcher (connectFails : Bool) (droid : Conn) (st : ADState) :
    ADState × Except String Dispatcher :=
  let key := ed_key st.serial droid.uid
  match alookup key st.event_dispatchers with
  | some none => (st, .error "EventDispatcher Key Empty")
  | some (some d) => (st, .ok d)
  | none =>
    match add_new_connection_to_session connectFails droid.uid st with
    | (st1, .error e) => (st1, .error e)
    | (st1, .ok event_droid) =>
      let d : Dispatcher := ⟨event_droid⟩
      ({ st1 with event_dispatchers := aset key (some d) st1.event_dispatchers },
       .ok d)

/-- The `droid` property: `sorted(self._droid_sessions)[0]` then the first
connection of that session; `IndexError` (empty registry or empty
connection list) yields `None`. -/
def droid (st : ADState) : Option Conn :=
  match isort (fun a b : Nat => decide (a ≤ b)) (akeys st.droid_sessions) with
  | [] => none
  | k :: _ => (alookup k st.droid_sessions).bind List.head?

/-- The `ed` property: `sorted(self._event_dispatchers)[0]` — note the keys
are STRINGS (`serial + str(uid)`), so Python sorts them lexicographically
by code point, not numerically.  An empty registry yields `None`, and a
stored `None` value is returned as-is (both map to `none` here, matching
the truthiness tests done on `ad.ed` by callers). -/
def ed (st : ADState) : Option Dispatcher :=
  match isort strLe (akeys st.event_dispatchers) with
  | [] => none
  | k :: _ => (alookup k st.event_dispatchers).bind id

/-- Close every connection of a session in list order (`closeSl4aSession`
then `close` per connection).  `failClose` is the set of connection ids on
which `closeSl4aSession` raises; on the first such connection the raise
propagates, with the earlier connections already closed. -/
def closeConnList (failClose : List Nat) : List Conn → List Nat → List Nat × Bool
  | [], closedAcc => (closedAcc, true)
  | c :: rest, closedAcc =>
    if c.connId ∈ failClose then (closedAcc, false)
    else closeConnList failClose rest (closedAcc ++ [c.connId])

/-- `AndroidDevice.terminate_session`.  Returns the (possibly partially
mutated) state together with `some msg` when an exception escapes: either
a connection close raised (session kept registered) or the cached
dispatcher value was `None` (attribute error on `clean_up`). -/
def terminate_session (failClose : List Nat) (session_id : Nat) (st : ADState) :
    ADState × Option String :=
  let st1 :=
    if st.droid_sessions ≠ [] ∧ session_id ∈ akeys st.droid_sessions then
      match alookup session_id st.droid_sessions with
      | none => (st, none)
      | some conns =>
        match closeConnList failClose conns st.closed with
        | (closed1, false) => ({ st with closed := closed1 }, some "failed to close a session connection")
        | (closed1, true) =>
          ({ st with closed := closed1,
                     droid_sessions := aerase session_id st.droid_sessions }, none)
    else (st, none)
  match st1 with
  | (st2, some e) => (st2, some e)
  | (st2, none) =>
    let key := ed_key st2.serial session_id
    match alookup key st2.event_dispatchers with
    | none => (st2, none)
    | some none => (st2, some "NoneType object has no attribute clean_up")
    | some (some d) =>
      ({ st2 with closed := st2.closed ++ [d.conn.connId],
                  event_dispatchers := aerase key st2.event_dispatchers }, none)

/-- The per-session loop of `terminate_all_sessions`: `try: terminate
except: log` for each snapshotted session id. -/
def terminate_all_go (failClose : List Nat) : List Nat → ADState → ADState
  | [], st => st
  | sid :: rest, st => terminate_all_go failClose rest (terminate_session failClose sid st).1

/-- `AndroidDevice.terminate_all_sessions`.  Note the port-release step is
nested inside `if self._droid_sessions:`, so it runs only when at least
one session is registered on entry. -/
def terminate_all_sessions (failClose : List Nat) (st : ADState) : ADState :=
  if st.droid_sessions ≠ [] then
    let st1 := terminate_all_go failClose (akeys st.droid_sessions) st
    if truthyPort st1.h_port then
      match st1.h_port with
      | some p =>
        { st1 with h_port := none, removed_forwards := st1.removed_forwards ++ [p] }
      | none => st1
    else st1
  else st

/-! ### `get_droid`: single-device session establishment -/

/-- Observable external actions taken by `get_droid`. -/
inductive Ev
  | get_available_host_port (p : Nat)
  | tcp_forward (h d : Nat)
  | session_attempt
  | start_sl4a
deriving DecidableEq, Repr

/-- The environment of one `get_droid` call: whether the currently held
host port is still available, which fresh host port the allocator would
return, the sl4a server behaviour for the (at most two) session-open
attempts, and whether the auxiliary dispatcher connection fails. -/
structure GetDroidIn where
  avail : Bool
  freshPort : Nat
  r1 : Option Nat
  r2 : Option Nat
  connectFails : Bool
deriving DecidableEq, Repr, Inhabited

/-- Whether a session-open attempt with server behaviour `r` fails on
state `st` (constructor failure, or uid collision with the registry). -/
def attempt_fails (r : Option Nat) (st : ADState) : Bool :=
  match r with
  | none => true
  | some uid => decide (uid ∈ akeys st.droid_sessions)

/-- The error message a failing attempt produces. -/
def attempt_err (r : Option Nat) : String :=
  match r with
  | none => "sl4a connection failed"
  | some _ => "SL4A returned an existing uid for a new session. Abort."

/-- `AndroidDevice.get_droid`: ensure a forwarded host port, forward it to
`d_port`, try `start_new_session`; on any failure run `adb.start_sl4a()`
and retry once, the second failure propagating.  With `handle_event` a
dispatcher is created for the new session. -/
def get_droid (inp : GetDroidIn) (handle_event : Bool) (st0 : ADState) :
    List Ev × ADState × Except String (Conn × Option Dispatcher) :=
  let port_evs : List Ev × ADState :=
    if !truthyPort st0.h_port || !inp.avail then
      ([Ev.get_available_host_port inp.freshPort], { st0 with h_port := some inp.freshPort })
    else ([], st0)
  let evs0 := port_evs.1
  let st := port_evs.2
  let hp := st.h_port.getD 0
  let evs1 := evs0 ++ [Ev.tcp_forward hp st.d_port]
  let opened : List Ev × ADState × Except String Conn :=
    match start_new_session inp.r1 st with
    | (st1, .ok d) => (evs1 ++ [Ev.session_attempt], st1, .ok d)
    | (st1, .error _) =>
      match start_new_session inp.r2 st1 with
      | (st2, res) =>
        (evs1 ++ [Ev.session_attempt, Ev.start_sl4a, Ev.session_attempt], st2, res)
  match opened with
  | (evs, st1, .error e) => (evs, st1, .error e)
  | (evs, st1, .ok d) =>
    if handle_event then
      match get_dispatcher inp.connectFails d st1 with
      | (st2, .ok disp) => (evs, st2, .ok (d, some disp))
      | (st2, .error e) => (evs, st2, .error e)
    else (evs, st1, .ok (d, none))

/-! ### Batch bring-up: `create`, `destroy` and `_cleanup` -/

/-- Per-device configuration handed to `create`, together with the fault
injection describing how the device's environment behaves during this
bring-up: whether `start_adb_logcat` raises, how the sl4a server answers,
and whether `ed.start()` raises. -/
structure DevCfg where
  serial : String
  skip_sl4a : Bool
  failLogcat : Bool
  gdIn : GetDroidIn
  failEdStart : Bool
deriving DecidableEq, Repr, Inhabited

/-- An `AndroidDevice` as `create`/`destroy` see it: the sl4a state plus
the `adb_logcat_process` handle. -/
structure ADFull where
  st : ADState
  adb_logcat_process : Option Nat
deriving DecidableEq, Repr, Inhabited

/-- A freshly constructed `AndroidDevice(serial)`. -/
def initAD (cfg : DevCfg) : ADFull :=
  { st := { serial := cfg.serial, h_port := none, d_port := 8080, nextConnId := 0,
            droid_sessions := [], event_dispatchers := [], closed := [],
            removed_forwards := [] },
    adb_logcat_process := none }

/-- The device-local part of `_cleanup`: stop the logcat subprocess if one
is running, and call `clean_up()` on `ad.ed` (the first dispatcher by
sorted key) if there is one.  Neither the session registry nor the
dispatcher registry is emptied here. -/
def cleanup_current (ad : ADFull) : ADFull :=
  let ad1 := if ad.adb_logcat_process.isSome then { ad with adb_logcat_process := none } else ad
  match ed ad1.st with
  | some d => { ad1 with st := { ad1.st with closed := ad1.st.closed ++ [d.conn.connId] } }
  | none => ad1

/-- `destroy` on one device: `terminate_all_sessions` (exceptions
swallowed; no close faults are injected during rollback) then stop the
logcat collector if it is running. -/
def destroyOne (ad : ADFull) : ADFull :=
  let ad1 := { ad with st := terminate_all_sessions [] ad.st }
  if ad1.adb_logcat_process.isSome then { ad1 with adb_logcat_process := none } else ad1

/-- Bring up a single device inside `create`'s loop: `start_adb_logcat`,
then (unless `skip_sl4a`) `get_droid()` and `ed.start()`.  On failure the
device-local `_cleanup` runs and the batch error message is produced. -/
def bring_up (cfg : DevCfg) : Except (ADFull × String) ADFull :=
  let ad := initAD cfg
  if cfg.failLogcat then
    .error (cleanup_current ad, "Failed to start logcat " ++ cfg.serial)
  else
    let ad1 := { ad with adb_logcat_process := some 1 }
    if cfg.skip_sl4a then .ok ad1
    else
      match get_droid cfg.gdIn true ad1.st with
      | (_evs, st1, .error _) =>
        .error (cleanup_current { ad1 with st := st1 },
                "Failed to start sl4a on " ++ cfg.serial)
      | (_evs, st1, .ok _) =>
        if cfg.failEdStart then
          .error (cleanup_current { ad1 with st := st1 },
                  "Failed to start sl4a on " ++ cfg.serial)
        else .ok { ad1 with st := st1 }

/-- The loop of `create`: bring devices up in order, accumulating the
active ones; on a failure, destroy every previously-activated device,
leave the failing device as `_cleanup` left it, leave the remaining
configured devices untouched, and propagate a single batch error. -/
def createGo (active : List ADFull) : List DevCfg → List ADFull × Option String
  | [] => (active.reverse, none)
  | cfg :: rest =>
    match bring_up cfg with
    | .ok ad => createGo (ad :: active) rest
    | .error (adF, msg) =>
      ((active.reverse.map destroyOne) ++ adF :: rest.map initAD, some msg)

/-- `create(configs)` over already-validated configured devices: the final
state of every device in order, plus the propagated batch error if any. -/
def create (cfgs : List DevCfg) : List ADFull × Option String :=
  createGo [] cfgs

/-! ### `_parse_device_list` (device enumerator) -/

/-- The per-line loop of `_parse_device_list`: strip the line, split on
tabs, keep column 1 when there are exactly two columns and column 2
equals `key`. -/
def parseLines (key : String) : List String → List String
  | [] => []
  | line :: rest =>
    let tokens := pySplit (pyStrip line) (Char.ofNat 9)
    if tokens.length = 2 ∧ tokens.getD 1 "" = key then
      tokens.getD 0 "" :: parseLines key rest
    else parseLines key rest

/-- `_parse_device_list(device_list_str, key)`: decode, strip, split into
lines, then scan each line. -/
def _parse_device_list (device_list_str key : String) : List String :=
  parseLines key (pySplit (pyStrip device_list_str) (Char.ofNat 10))

/-- Independent reading of the spec sentence for one line: a line matches
exactly when, after stripping, it consists of two tab-separated columns
whose second column is the mode marker; the serial is the first column. -/
def specLineMatch (key line : String) : Option String :=
  match pySplit (pyStrip line) (Char.ofNat 9) with
  | [serial, marker] => if marker = key then some serial else none
  | _ => none

/-! ### `cat_adb_log` (log excerpt extractor) -/

/-- One line of the continuous logcat file.  Modelled from the spec: the
`acts.logger` helpers (`is_valid_logline_timestamp`,
`logline_timestamp_comparator`, `log_line_timestamp_len`) are not under
`src/`; per the spec each line begins with a fixed-width timestamp token
that either fails to parse (`tsValid = false`) or parses to a value the
monotonic comparator orders, modelled as a `Nat` compared numerically.
`raw` is the full text of the line. -/
structure LogLine where
  tsValid : Bool
  ts : Nat
  raw : String
deriving DecidableEq, Repr, Inhabited

/-- `AndroidDevice._is_timestamp_in_range`: `comparator(begin, t) <= 0 and
comparator(end, t) >= 0`, i.e. inclusive on both ends. -/
def _is_timestamp_in_range (target begin_time end_time : Nat) : Bool :=
  decide (begin_time ≤ target) && decide (target ≤ end_time)

/-- The write step of the scan: `if not line.endswith(chr 10): line += chr 10`. -/
def ensureNl (s : String) : String :=
  if pyEndsWith s "\n" then s else s ++ "\n"

/-- The scan loop of `cat_adb_log`, with the `in_range` flag: skip lines
with an invalid timestamp, copy in-range lines, and once in range stop at
the first out-of-range line with a valid timestamp. -/
def catScan (begin_time end_time : Nat) : List LogLine → Bool → List String
  | [], _ => []
  | l :: rest, in_range =>
    if !l.tsValid then catScan begin_time end_time rest in_range
    else if _is_timestamp_in_range l.ts begin_time end_time then
      ensureNl l.raw :: catScan begin_time end_time rest true
    else if in_range then []
    else catScan begin_time end_time rest in_range

/-- The output file name computed by `cat_adb_log`: strip the `adblog,`
prefix and `.txt` suffix from the source log's base name, build
`,<begin_time>,<stripped>.txt`, and prepend the tag truncated so the whole
name fits `utils.MAX_FILENAME_LEN` (modelled from the spec as the
parameter `maxFilenameLen`, since `acts.utils` is not under `src/`). -/
def cat_out_name (maxFilenameLen : Nat) (tag begin_time f_name : String) : String :=
  let out0 := pyReplace (pyReplace f_name "adblog," "") ".txt" ""
  let out1 := "," ++ begin_time ++ "," ++ out0 ++ ".txt"
  let tag_len : Int := (maxFilenameLen : Int) - (out1.length : Int)
  pySliceTo tag tag_len ++ out1

/-- `AndroidDevice.cat_adb_log`: fails when no logcat collection has
produced a file; otherwise returns the excerpt file's base name and the
lines written to it.  `begin_str` is the logline-format rendering of the
window start used in the file name; `begin_time`/`end_time` are the
parsed window bounds used by the comparator (`end_time` is the current
time taken at the start of the call). -/
def cat_adb_log (maxFilenameLen : Nat) (tag begin_str : String)
    (begin_time end_time : Nat) (adb_logcat_file_path : Option String)
    (lines : List LogLine) : Except String (String × List String) :=
  match adb_logcat_file_path with
  | none => .error "Attempting to cat adb log when none has been collected."
  | some path =>
    .ok (cat_out_name maxFilenameLen tag begin_str path,
         catScan begin_time end_time lines false)

/-! ### `wait_for_boot_completion` (boot-wait controller) -/

/-- One poll of the boot-completion indicator.  Modelled from the spec:
the `acts.controllers.adb` channel is not under `src/`; a poll either
raises `AdbError` (transient channel error) or returns the shell output
of `getprop sys.boot_completed`. -/
inductive PollRes
  | ok (out : String)
  | adbErr
deriving DecidableEq, Repr

/-- Whether a poll result is the completion indicator: the decoded output,
stripped, equals the string 1 — a raised `AdbError` never is. -/
def pollIs1 : PollRes → Bool
  | .ok out => pyStrip out = "1"
  | .adbErr => false

/-- The polling loop of `wait_for_boot_completion`, over discretised time:
iteration guard `time.time() < timeout_start + 15 * 60`, one poll per
iteration, `time.sleep(5)` between polls; `AdbError` is swallowed.  `t` is
the current time minus `timeout_start`.  The loop advances `t` by 5 per
iteration, so any `fuel` with `900 ≤ t + 5 * fuel` makes the fuel bound
unreachable; the fuel only makes the recursion structural. -/
def bootPollGo (poll : Nat → PollRes) : Nat → Nat → Except String Nat
  | fuel + 1, t =>
    if t < 15 * 60 then
      if pollIs1 (poll t) then .ok t
      else bootPollGo poll fuel (t + 5)
    else .error "timed out"
  | 0, _ => .error "timed out"

/-- `AndroidDevice.wait_for_boot_completion`: block on
`adb.wait_for_device()` (the blocking call returns after `w` time units,
counted from the `timeout_start` snapshot taken just before it), then
poll every 5 units until 15 minutes have elapsed since `timeout_start`;
on timeout raise an `AndroidDeviceError` naming the device serial. -/
def wait_for_boot_completion (serial : String) (poll : Nat → PollRes) (w : Nat) :
    Except String Nat :=
  match bootPollGo poll 180 w with
  | .ok t => .ok t
  | .error _ => .error ("Device " ++ serial ++ " booting process timed out.")

/-! ## Supporting lemmas for the claims -/

theorem aset_eq_append_of_not_mem {α β : Type} [DecidableEq α] (k : α) (v : β) :
    ∀ l : List (α × β), k ∉ akeys l → aset k v l = l ++ [(k, v)] := by
  intro l
  induction l with
  | nil => intro _; rfl
  | cons p rest ih =>
    intro h
    obtain ⟨k2, v2⟩ := p
    simp only [akeys_cons, List.mem_cons, not_or] at h
    simp [aset, h.1, ih h.2]

theorem parseLines_eq_filterMap (key : String) :
    ∀ lines : List String, parseLines key lines = lines.filterMap (specLineMatch key) := by
  intro lines
  induction lines with
  | nil => rfl
  | cons line rest ih =>
    simp only [parseLines, List.filterMap_cons]
    rcases h : pySplit (pyStrip line) (Char.ofNat 9) with _ | ⟨a, bs⟩
    · simp [specLineMatch, h, ih]
    · rcases bs with _ | ⟨b, cs⟩
      · simp [specLineMatch, h, ih]
      · rcases cs with _ | ⟨c, ds⟩
        · by_cases hk : b = key
          · simp [specLineMatch, h, hk, List.getD, ih]
          · simp [specLineMatch, h, hk, List.getD, ih]
        · simp [specLineMatch, h, ih]

/-! ## C10: the device-list parser -/

/-- C10: for all device-list text and mode marker, `_parse_device_list`
returns exactly the first columns of the (stripped) lines that consist of
two tab-separated columns whose second column equals the marker, in input
order; lines with any other column count or a non-matching second column
contribute nothing; and when no line matches, the result is the empty
list (the function is total, so it never fails). -/
theorem parse_device_list_matches_spec (s key : String) :
    _parse_device_list s key =
      (pySplit (pyStrip s) (Char.ofNat 10)).filterMap (specLineMatch key) ∧
    ((∀ line ∈ pySplit (pyStrip s) (Char.ofNat 10), specLineMatch key line = none) →
      _parse_device_list s key = []) := by
  constructor
  · exact parseLines_eq_filterMap key _
  · intro h
    rw [_parse_device_list, parseLines_eq_filterMap]
    exact List.filterMap_eq_nil_iff.mpr h

/-- Witness for C10 at concrete inputs: a matching, a non-matching and a
malformed line; and an input with no matching line yields the empty
list. -/
theorem parse_device_list_matches_spec_witness :
    _parse_device_list "s1\tdevice\ns2\tfastboot\njunk" "device" =
      (pySplit (pyStrip "s1\tdevice\ns2\tfastboot\njunk") (Char.ofNat 10)).filterMap
        (specLineMatch "device") ∧
    _parse_device_list "s2\tfastboot\njunk" "device" = [] :=
  ⟨(parse_device_list_matches_spec "s1\tdevice\ns2\tfastboot\njunk" "device").1,
   (parse_device_list_matches_spec "s2\tfastboot\njunk" "device").2 (by decide)⟩

/-! ## C2: duplicate session uid is rejected, registries untouched -/

/-- C2: if the server assigns a uid already present in the session
registry, `start_new_session` raises `SL4AException` and both the session
registry and the dispatcher registry are exactly as before (only the
connection-object counter advanced, since the `Android()` constructor ran
before the check); with a fresh uid exactly one new session entry is
appended, holding the new primary connection, and the dispatcher registry
is untouched. -/
theorem start_new_session_uid_contract (st : ADState) (u : Nat) :
    (u ∈ akeys st.droid_sessions →
      start_new_session (some u) st =
        ({ st with nextConnId := st.nextConnId + 1 },
         .error "SL4A returned an existing uid for a new session. Abort.")) ∧
    (u ∉ akeys st.droid_sessions →
      start_new_session (some u) st =
        ({ st with nextConnId := st.nextConnId + 1,
                   droid_sessions := st.droid_sessions ++ [(u, [⟨u, st.nextConnId⟩])] },
         .ok ⟨u, st.nextConnId⟩)) := by
  constructor
  · intro h
    simp [start_new_session, h]
  · intro h
    simp [start_new_session, h, aset_eq_append_of_not_mem u _ _ h]

/-- Witness for C2: on a device with a registered session of uid 7, a
colliding assignment errors and leaves both registries unchanged, and a
fresh uid 9 adds one entry. -/
theorem start_new_session_uid_contract_witness :
    start_new_session (some 7)
        { serial := "a", h_port := some 1024, d_port := 8080, nextConnId := 1,
          droid_sessions := [(7, [⟨7, 0⟩])], event_dispatchers := [],
          closed := [], removed_forwards := [] } =
      ({ serial := "a", h_port := some 1024, d_port := 8080, nextConnId := 2,
         droid_sessions := [(7, [⟨7, 0⟩])], event_dispatchers := [],
         closed := [], removed_forwards := [] },
       .error "SL4A returned an existing uid for a new session. Abort.") ∧
    start_new_session (some 9)
        { serial := "a", h_port := some 1024, d_port := 8080, nextConnId := 1,
          droid_sessions := [(7, [⟨7, 0⟩])], event_dispatchers := [],
          closed := [], removed_forwards := [] } =
      ({ serial := "a", h_port := some 1024, d_port := 8080, nextConnId := 2,
         droid_sessions := [(7, [⟨7, 0⟩]), (9, [⟨9, 1⟩])], event_dispatchers := [],
         closed := [], removed_forwards := [] },
       .ok ⟨9, 1⟩) :=
  ⟨(start_new_session_uid_contract _ 7).1 (by decide),
   (start_new_session_uid_contract _ 9).2 (by decide)⟩

/-! ## C8: `get_dispatcher` is idempotent -/

/-- C8: for a device with an open session `droid.uid` and no cached
dispatcher for it, the first `get_dispatcher` call attaches one new
auxiliary connection (the connection counter advances by exactly one) and
caches the dispatcher under `serial + str(uid)`; calling it again returns
the identical dispatcher object with the state completely unchanged — no
new connection is attached. -/
theorem get_dispatcher_idempotent (st : ADState) (droid : Conn)
    (hs : droid.uid ∈ akeys st.droid_sessions)
    (hkey : alookup (ed_key st.serial droid.uid) st.event_dispatchers = none) :
    (get_dispatcher false droid st).2 = .ok ⟨⟨droid.uid, st.nextConnId⟩⟩ ∧
    (get_dispatcher false droid st).1.nextConnId = st.nextConnId + 1 ∧
    alookup (ed_key st.serial droid.uid)
        (get_dispatcher false droid st).1.event_dispatchers =
      some (some ⟨⟨droid.uid, st.nextConnId⟩⟩) ∧
    get_dispatcher false droid (get_dispatcher false droid st).1 =
      get_dispatcher false droid st := by
  have hstep : get_dispatcher false droid st = ({ st with nextConnId := st.nextConnId + 1, event_dispatchers := aset (ed_key st.serial droid.uid) (some ⟨⟨droid.uid, st.nextConnId⟩⟩) st.event_dispatchers }, .ok ⟨⟨droid.uid, st.nextConnId⟩⟩) := by
    simp [get_dispatcher, hkey, add_new_connection_to_session, hs]
  rw [hstep]
  refine ⟨rfl, rfl, ?_, ?_⟩
  · exact alookup_aset_self _ _ _
  · simp [get_dispatcher, alookup_aset_self]

/-- A concrete device state with one open session (uid 5) and no cached
dispatcher, used by the C8 witness. -/
def stC8w : ADState :=
  { serial := "a"
    h_port := some 1024
    d_port := 8080
    nextConnId := 1
    droid_sessions := [(5, [⟨5, 0⟩])]
    event_dispatchers := []
    closed := []
    removed_forwards := [] }

/-- Witness for C8 on a device with session 5 and an empty dispatcher
cache. -/
theorem get_dispatcher_idempotent_witness :
    (get_dispatcher false ⟨5, 0⟩ stC8w).2 = .ok ⟨⟨5, 1⟩⟩ ∧
    (get_dispatcher false ⟨5, 0⟩ stC8w).1.nextConnId = 2 ∧
    alookup (ed_key "a" 5) (get_dispatcher false ⟨5, 0⟩ stC8w).1.event_dispatchers =
      some (some ⟨⟨5, 1⟩⟩) ∧
    get_dispatcher false ⟨5, 0⟩ (get_dispatcher false ⟨5, 0⟩ stC8w).1 =
      get_dispatcher false ⟨5, 0⟩ stC8w :=
  get_dispatcher_idempotent stC8w ⟨5, 0⟩ (by decide) (by decide)

/-! ## C6: boot-wait polling -/

theorem bootPollGo_ok_iff (poll : Nat → PollRes) :
    ∀ (fuel t : Nat), 900 ≤ t + 5 * fuel →
      ((∃ s, bootPollGo poll fuel t = .ok s) ↔
        ∃ k, t + 5 * k < 900 ∧ pollIs1 (poll (t + 5 * k)) = true) := by
  intro fuel
  induction fuel with
  | zero =>
    intro t ht
    simp only [bootPollGo]
    constructor
    · rintro ⟨s, hs⟩; cases hs
    · rintro ⟨k, hk, _⟩; omega
  | succ fuel ih =>
    intro t ht
    simp only [bootPollGo]
    by_cases htl : t < 15 * 60
    · rw [if_pos htl]
      by_cases h1 : pollIs1 (poll t) = true
      · rw [if_pos h1]
        constructor
        · intro _
          exact ⟨0, by simpa using htl, by simpa using h1⟩
        · intro _; exact ⟨t, rfl⟩
      · rw [if_neg h1]
        have ih2 := ih (t + 5) (by omega)
        rw [ih2]
        constructor
        · rintro ⟨k, hk, hp⟩
          exact ⟨k + 1, by omega, by have : t + 5 + 5 * k = t + 5 * (k + 1) := by ring
                                     rwa [this] at hp⟩
        · rintro ⟨k, hk, hp⟩
          cases k with
          | zero => simp only [Nat.mul_zero, Nat.add_zero] at hp; exact absurd hp h1
          | succ k2 =>
            refine ⟨k2, by omega, ?_⟩
            have : t + 5 * (k2 + 1) = t + 5 + 5 * k2 := by ring
            rwa [this] at hp
    · rw [if_neg htl]
      constructor
      · rintro ⟨s, hs⟩; cases hs
      · rintro ⟨k, hk, _⟩; omega

theorem bootPollGo_timeout (poll : Nat → PollRes) :
    ∀ (fuel t : Nat),
      (∀ k, t + 5 * k < 900 → pollIs1 (poll (t + 5 * k)) = false) →
      bootPollGo poll fuel t = .error "timed out" := by
  intro fuel
  induction fuel with
  | zero => intro t _; rfl
  | succ fuel ih =>
    intro t hall
    simp only [bootPollGo]
    by_cases htl : t < 15 * 60
    · rw [if_pos htl]
      have h0 : pollIs1 (poll t) = false := by
        have := hall 0 (by simpa using htl)
        simpa using this
      rw [h0]
      simp only [Bool.false_eq_true, if_false]
      apply ih
      intro k hk
      have : t + 5 + 5 * k = t + 5 * (k + 1) := by ring
      rw [this]
      exact hall (k + 1) (by omega)
    · rw [if_neg htl]

/-- C6: `wait_for_boot_completion` first blocks on the channel
(`adb.wait_for_device()`, taking `w` time units from the clock snapshot),
then polls `getprop sys.boot_completed` every 5 time units under the
15-minute (900-unit) ceiling measured from the snapshot.  It returns
normally exactly when some poll inside the ceiling yields (stripped)
output 1 — transient `AdbError` polls are swallowed and never satisfy
this, so polling just continues past them — and if no poll inside the
ceiling does (at most 180 polls are ever made), it raises the fatal
timeout error naming the device serial. -/
theorem wait_for_boot_completion_spec (serial : String) (poll : Nat → PollRes) (w : Nat) :
    ((∃ t, wait_for_boot_completion serial poll w = .ok t) ↔
      ∃ k, w + 5 * k < 900 ∧ pollIs1 (poll (w + 5 * k)) = true) ∧
    ((∀ k, k < 180 → w + 5 * k < 900 → pollIs1 (poll (w + 5 * k)) = false) →
      wait_for_boot_completion serial poll w =
        .error ("Device " ++ serial ++ " booting process timed out.")) := by
  constructor
  · rw [← bootPollGo_ok_iff poll 180 w (by omega)]
    unfold wait_for_boot_completion
    cases hgo : bootPollGo poll 180 w with
    | ok s => exact ⟨fun ⟨t, _⟩ => ⟨s, rfl⟩, fun ⟨t, ht⟩ => ⟨t, by simpa using ht⟩⟩
    | error e =>
      constructor
      · rintro ⟨t, ht⟩; cases ht
      · rintro ⟨t, ht⟩; cases ht
  · intro hall
    unfold wait_for_boot_completion
    rw [bootPollGo_timeout poll 180 w]
    intro k hk
    exact hall k (by omega) hk

/-- Witness for C6: a channel that answers 0 for the first two polls and
1 from then on succeeds at the third poll (having slept twice); a channel
that always answers 0 times out with the device-naming error, obtained by
applying the theorem. -/
theorem wait_for_boot_completion_spec_witness :
    wait_for_boot_completion "SER" (fun t => if t < 10 then .ok "0" else .ok "1") 0 =
      .ok 10 ∧
    wait_for_boot_completion "SER" (fun _ => .ok "0") 0 =
      .error "Device SER booting process timed out." :=
  ⟨by rfl,
   (wait_for_boot_completion_spec "SER" (fun _ => .ok "0") 0).2 (by decide)⟩

/-! ## C5: the log excerpt extractor -/

theorem catScan_inRange_eq (bT eT : Nat) :
    ∀ lines : List LogLine,
      catScan bT eT lines true =
        ((lines.filter fun l => l.tsValid).takeWhile
            (fun l => _is_timestamp_in_range l.ts bT eT)).map (fun l => ensureNl l.raw) := by
  intro lines
  induction lines with
  | nil => rfl
  | cons l rest ih =>
    by_cases hv : l.tsValid
    · by_cases hr : _is_timestamp_in_range l.ts bT eT
      · simp [catScan, hv, hr, ih]
      · simp [catScan, hv, hr]
    · simp [catScan, hv, ih]

theorem catScan_scan_eq (bT eT : Nat) :
    ∀ lines : List LogLine,
      catScan bT eT lines false =
        (((lines.filter fun l => l.tsValid).dropWhile
              (fun l => !_is_timestamp_in_range l.ts bT eT)).takeWhile
            (fun l => _is_timestamp_in_range l.ts bT eT)).map (fun l => ensureNl l.raw) := by
  intro lines
  induction lines with
  | nil => rfl
  | cons l rest ih =>
    by_cases hv : l.tsValid
    · by_cases hr : _is_timestamp_in_range l.ts bT eT
      · simp [catScan, hv, hr, catScan_inRange_eq]
      · simp [catScan, hv, hr, ih]
    · simp [catScan, hv, ih]

theorem pyTake_length (s : String) (n : Nat) : (pyTake s n).length = min n s.length :=
  List.length_take n s.data

theorem int_toNat_sub_of_le : ∀ (m l : Nat), l ≤ m → ((m : Int) - (l : Int)).toNat = m - l := by
  intro m l h
  omega

/-- When the fixed part of the excerpt name fits in the maximum filename
length, `cat_out_name` is the tag truncated to the remaining room followed
by that fixed part, and the whole name fits the maximum. -/
theorem cat_out_name_fit (maxLen : Nat) (tag b f : String)
    (hfit : ("," ++ b ++ "," ++
        pyReplace (pyReplace f "adblog," "") ".txt" "" ++ ".txt").length ≤ maxLen) :
    cat_out_name maxLen tag b f =
      pyTake tag (maxLen - ("," ++ b ++ "," ++
          pyReplace (pyReplace f "adblog," "") ".txt" "" ++ ".txt").length) ++
        ("," ++ b ++ "," ++ pyReplace (pyReplace f "adblog," "") ".txt" "" ++ ".txt") ∧
    (cat_out_name maxLen tag b f).length ≤ maxLen := by
  constructor
  · simp only [cat_out_name, pySliceTo]
    split
    next hpos => rw [int_toNat_sub_of_le maxLen _ hfit]
    next hneg => exfalso; omega
  · simp only [cat_out_name, pySliceTo]
    split
    next hpos =>
      rw [String.length_append, pyTake_length, int_toNat_sub_of_le maxLen _ hfit]
      omega
    next hneg => exfalso; omega

/-- C5: on a device whose logcat collection produced the file `f_name`,
`cat_adb_log` with tag `tag` and window `[bT, eT]` (the end being the
current time taken at the start of the call) writes a file whose name is
the tag — truncated so the whole name fits the maximum filename length —
followed by the window start and the original base name stripped of the
`adblog,` prefix and `.txt` suffix, and whose content is exactly the
first contiguous run of source lines whose timestamp prefix parses and
lies within `[bT, eT]`, both ends inclusive, in source order: lines with
an unparseable prefix are skipped without aborting the scan (both before
and inside the run, and they do not end it), and the scan stops at the
first parseable out-of-range line after the run started.  The produced
name never exceeds the maximum filename length. -/
theorem cat_adb_log_spec (maxLen : Nat) (tag begin_str : String) (bT eT : Nat)
    (f_name : String) (lines : List LogLine)
    (hfit : ("," ++ begin_str ++ "," ++
        pyReplace (pyReplace f_name "adblog," "") ".txt" "" ++ ".txt").length ≤ maxLen) :
    cat_adb_log maxLen tag begin_str bT eT (some f_name) lines =
      .ok (pyTake tag (maxLen - ("," ++ begin_str ++ "," ++
              pyReplace (pyReplace f_name "adblog," "") ".txt" "" ++ ".txt").length) ++
            ("," ++ begin_str ++ "," ++
              pyReplace (pyReplace f_name "adblog," "") ".txt" "" ++ ".txt"),
           (((lines.filter fun l => l.tsValid).dropWhile
                 (fun l => !_is_timestamp_in_range l.ts bT eT)).takeWhile
               (fun l => _is_timestamp_in_range l.ts bT eT)).map (fun l => ensureNl l.raw)) ∧
    (cat_out_name maxLen tag begin_str f_name).length ≤ maxLen := by
  constructor
  · simp only [cat_adb_log]
    rw [catScan_scan_eq, (cat_out_name_fit maxLen tag begin_str f_name hfit).1]
  · exact (cat_out_name_fit maxLen tag begin_str f_name hfit).2

/-- The concrete log used by the C5 witness: an early out-of-range line,
unparseable lines before and inside the run, two in-range lines, the
out-of-range line that ends the scan, and a later in-range line that the
early stop must not copy. -/
def linesC5w : List LogLine :=
  [⟨true, 999, "a"⟩, ⟨false, 0, "junk"⟩, ⟨true, 1001, "b"⟩, ⟨false, 5, "mid"⟩,
   ⟨true, 1003, "c"⟩, ⟨true, 1006, "d"⟩, ⟨true, 1002, "e"⟩]

/-- Witness for C5: with window `[1001, 1005]` over `linesC5w` the excerpt
file is named from the truncated tag, start time and stripped base name,
and contains exactly the first contiguous in-range run (the line at 1002,
after the run ended, is not copied). -/
theorem cat_adb_log_spec_witness :
    cat_adb_log 40 "MyTag" "1001" 1001 1005 (some "adblog,m,s.txt") linesC5w =
      .ok ("MyTag,1001,m,s.txt", ["b\n", "c\n"]) ∧
    (cat_out_name 40 "MyTag" "1001" "adblog,m,s.txt").length ≤ 40 :=
  ⟨((cat_adb_log_spec 40 "MyTag" "1001" 1001 1005 "adblog,m,s.txt" linesC5w
      (by decide)).1).trans (by rfl),
   (cat_adb_log_spec 40 "MyTag" "1001" 1001 1005 "adblog,m,s.txt" linesC5w
      (by decide)).2⟩

/-! ## C4: the droid and ed accessors -/

theorem alookup_isSome_of_mem_akeys {α β : Type} [DecidableEq α] {k : α}
    {l : List (α × β)} (h : k ∈ akeys l) : ∃ v, alookup k l = some v := by
  induction l with
  | nil => simp [akeys] at h
  | cons p rest ih =>
    obtain ⟨k2, v2⟩ := p
    by_cases h2 : k = k2
    · exact ⟨v2, by simp [alookup, h2]⟩
    · simp only [akeys_cons, List.mem_cons, h2, false_or] at h
      obtain ⟨v, hv⟩ := ih h
      exact ⟨v, by simp [alookup, h2, hv]⟩

/-- C4 counterexample state: a device with serial `x`, two sessions
(server-assigned uids 2 and 10) each holding its primary connection, and
the two dispatchers cached under the string keys `x2` and `x10`. -/
def stC4 : ADState :=
  { serial := "x"
    h_port := some 1024
    d_port := 8080
    nextConnId := 4
    droid_sessions := [(2, [⟨2, 0⟩]), (10, [⟨10, 1⟩])]
    event_dispatchers := [("x2", some ⟨⟨2, 2⟩⟩), ("x10", some ⟨⟨10, 3⟩⟩)]
    closed := []
    removed_forwards := [] }

/-- C4 counterexample: on `stC4` the `droid` property returns session 2's
primary connection (2 is the numerically lowest uid), but the `ed`
property returns session 10's dispatcher, not session 2's — the
dispatcher registry is keyed by the strings `serial + str(uid)` and
`x10` precedes `x2` lexicographically.  Hence the claim that both
accessors select by the numerically lowest surviving session id is false:
the dispatcher belonging to the lowest session id (cached under `x2`) is
not the one `ed` returns. -/
theorem droid_ed_disagree_counterexample :
    droid stC4 = some ⟨2, 0⟩ ∧
    alookup (ed_key "x" 2) stC4.event_dispatchers = some (some ⟨⟨2, 2⟩⟩) ∧
    ed stC4 = some ⟨⟨10, 3⟩⟩ ∧
    ed stC4 ≠ some ⟨⟨2, 2⟩⟩ := by
  refine ⟨by decide, by decide, by decide, by decide⟩

/-- C4 amended: the `droid` property does return the primary (first)
connection of the session with the numerically lowest surviving session
id, but the `ed` property returns the dispatcher stored under the
lexicographically smallest key of the dispatcher registry (the keys being
`serial + str(uid)`), which coincides with the numerically lowest session
id only when the decimal renderings happen to order the same way (for
example, when all ids have equally many digits).  Both statements hold
for every reachable state, in particular after any other session is
terminated. -/
theorem droid_ed_accessor_order (st : ADState)
    (hs : st.droid_sessions ≠ []) (hd : st.event_dispatchers ≠ []) :
    (∃ u conns, alookup u st.droid_sessions = some conns ∧
      u ∈ akeys st.droid_sessions ∧
      (∀ v ∈ akeys st.droid_sessions, u ≤ v) ∧
      droid st = conns.head?) ∧
    (∃ key v, alookup key st.event_dispatchers = some v ∧
      key ∈ akeys st.event_dispatchers ∧
      (∀ k2 ∈ akeys st.event_dispatchers, strLe key k2 = true) ∧
      ed st = v) := by
  constructor
  · have hkeys : akeys st.droid_sessions ≠ [] := by
      cases h : st.droid_sessions with
      | nil => exact absurd h hs
      | cons p rest => simp [h]
    rcases hsort : isort (fun a b : Nat => decide (a ≤ b)) (akeys st.droid_sessions) with
      _ | ⟨u, tl⟩
    · exact absurd hsort (isort_ne_nil _ hkeys)
    · have hmem : u ∈ akeys st.droid_sessions := by
        rw [← mem_isort (fun a b : Nat => decide (a ≤ b))]
        rw [hsort]
        exact List.mem_cons_self u tl
      obtain ⟨conns, hconns⟩ := alookup_isSome_of_mem_akeys hmem
      refine ⟨u, conns, hconns, hmem, ?_, ?_⟩
      · intro v hv
        have := isort_head_le (fun a b : Nat => decide (a ≤ b))
          (fun a b => by rcases Nat.le_total a b with h | h <;> simp [h])
          (fun a b c h1 h2 => by
            simp only [decide_eq_true_eq] at h1 h2 ⊢
            omega)
          (akeys st.droid_sessions) u tl hsort v hv
        simpa using this
      · rw [droid, hsort]
        simp [hconns]
  · have hkeys : akeys st.event_dispatchers ≠ [] := by
      cases h : st.event_dispatchers with
      | nil => exact absurd h hd
      | cons p rest => simp [h]
    rcases hsort : isort strLe (akeys st.event_dispatchers) with _ | ⟨key, tl⟩
    · exact absurd hsort (isort_ne_nil _ hkeys)
    · have hmem : key ∈ akeys st.event_dispatchers := by
        rw [← mem_isort strLe]
        rw [hsort]
        exact List.mem_cons_self key tl
      obtain ⟨v, hv⟩ := alookup_isSome_of_mem_akeys hmem
      refine ⟨key, v, hv, hmem, ?_, ?_⟩
      · intro k2 hk2
        exact isort_head_le strLe strLe_total strLe_trans
          (akeys st.event_dispatchers) key tl hsort k2 hk2
      · rw [ed, hsort]
        simp [hv]

/-- Witness for the amended C4 on a device with sessions 3 and 8 (equal
digit counts, so both orders agree there). -/
theorem droid_ed_accessor_order_witness :
    (∃ u conns,
      alookup u [(8, [(⟨8, 1⟩ : Conn)]), (3, [⟨3, 0⟩])] = some conns ∧
      u ∈ akeys [(8, [(⟨8, 1⟩ : Conn)]), (3, [⟨3, 0⟩])] ∧
      (∀ v ∈ akeys [(8, [(⟨8, 1⟩ : Conn)]), (3, [⟨3, 0⟩])], u ≤ v) ∧
      droid { serial := "y", h_port := none, d_port := 8080, nextConnId := 4, droid_sessions := [(8, [⟨8, 1⟩]), (3, [⟨3, 0⟩])], event_dispatchers := [("y8", some ⟨⟨8, 2⟩⟩), ("y3", some ⟨⟨3, 3⟩⟩)], closed := [], removed_forwards := [] } = conns.head?) ∧
    (∃ key v,
      alookup key [("y8", some (⟨⟨8, 2⟩⟩ : Dispatcher)), ("y3", some ⟨⟨3, 3⟩⟩)] = some v ∧
      key ∈ akeys [("y8", some (⟨⟨8, 2⟩⟩ : Dispatcher)), ("y3", some ⟨⟨3, 3⟩⟩)] ∧
      (∀ k2 ∈ akeys [("y8", some (⟨⟨8, 2⟩⟩ : Dispatcher)), ("y3", some ⟨⟨3, 3⟩⟩)], strLe key k2 = true) ∧
      ed { serial := "y", h_port := none, d_port := 8080, nextConnId := 4, droid_sessions := [(8, [⟨8, 1⟩]), (3, [⟨3, 0⟩])], event_dispatchers := [("y8", some ⟨⟨8, 2⟩⟩), ("y3", some ⟨⟨3, 3⟩⟩)], closed := [], removed_forwards := [] } = v) :=
  droid_ed_accessor_order
    { serial := "y", h_port := none, d_port := 8080, nextConnId := 4, droid_sessions := [(8, [⟨8, 1⟩]), (3, [⟨3, 0⟩])], event_dispatchers := [("y8", some ⟨⟨8, 2⟩⟩), ("y3", some ⟨⟨3, 3⟩⟩)], closed := [], removed_forwards := [] }
    (by decide) (by decide)

/-! ## C3: terminate_all_sessions -/

/-- Whether terminating a session's connection list raises: some
connection's `closeSl4aSession` is set to fail. -/
def sessCloseFails (failClose : List Nat) (conns : List Conn) : Bool :=
  conns.any (fun c => decide (c.connId ∈ failClose))

theorem closeConnList_snd (failClose : List Nat) :
    ∀ (conns : List Conn) (acc : List Nat),
      (closeConnList failClose conns acc).2 = !sessCloseFails failClose conns := by
  intro conns
  induction conns with
  | nil => intro acc; simp [closeConnList, sessCloseFails]
  | cons c rest ih =>
    intro acc
    by_cases h : c.connId ∈ failClose
    · simp [closeConnList, sessCloseFails, h]
    · simp [closeConnList, sessCloseFails, h, ih]

theorem closeConnList_no_fault :
    ∀ (conns : List Conn) (acc : List Nat),
      closeConnList [] conns acc = (acc ++ conns.map (fun c => c.connId), true) := by
  intro conns
  induction conns with
  | nil => intro acc; simp [closeConnList]
  | cons c rest ih => intro acc; simp [closeConnList, ih]

theorem alookup_eq_of_mem_nodup {α β : Type} [DecidableEq α] {k : α} {v : β} :
    ∀ {l : List (α × β)}, (akeys l).Nodup → (k, v) ∈ l → alookup k l = some v := by
  intro l
  induction l with
  | nil => intro _ h; cases h
  | cons p rest ih =>
    intro hnd hmem
    obtain ⟨k2, v2⟩ := p
    simp only [akeys_cons, List.nodup_cons] at hnd
    rcases List.mem_cons.mp hmem with heq | hmem2
    · cases heq
      simp [alookup]
    · have hne : k ≠ k2 := by
        intro hkk
        subst hkk
        exact hnd.1 (by simpa [akeys] using List.mem_map_of_mem Prod.fst hmem2)
      simp [alookup, hne, ih hnd.2 hmem2]

theorem akeys_aerase_sublist {α β : Type} [DecidableEq α] (k : α) (l : List (α × β)) :
    (akeys (aerase k l)).Sublist (akeys l) :=
  (List.filter_sublist l).map Prod.fst

/-- `terminate_session` never touches the serial, the forwarded port, or
the removed-forwards log. -/
theorem terminate_session_preserves (failClose : List Nat) (sid : Nat) (st : ADState) :
    (terminate_session failClose sid st).1.serial = st.serial ∧
    (terminate_session failClose sid st).1.h_port = st.h_port ∧
    (terminate_session failClose sid st).1.removed_forwards = st.removed_forwards := by
  by_cases hmem : sid ∈ akeys st.droid_sessions
  · have hne : st.droid_sessions ≠ [] := by
      intro hc; rw [hc] at hmem; simp [akeys] at hmem
    obtain ⟨conns, hlk⟩ := alookup_isSome_of_mem_akeys hmem
    unfold terminate_session
    rw [if_pos ⟨hne, hmem⟩, hlk]
    dsimp only
    rcases hcc : closeConnList failClose conns st.closed with ⟨closed1, ok⟩
    cases ok
    · exact ⟨rfl, rfl, rfl⟩
    · dsimp only
      split
      · exact ⟨rfl, rfl, rfl⟩
      · exact ⟨rfl, rfl, rfl⟩
      · exact ⟨rfl, rfl, rfl⟩
  · unfold terminate_session
    rw [if_neg (by simp [hmem])]
    dsimp only
    split
    · exact ⟨rfl, rfl, rfl⟩
    · exact ⟨rfl, rfl, rfl⟩
    · exact ⟨rfl, rfl, rfl⟩

theorem terminate_session_sessions_not_mem (failClose : List Nat) (sid : Nat)
    (st : ADState) (h : sid ∉ akeys st.droid_sessions) :
    (terminate_session failClose sid st).1.droid_sessions = st.droid_sessions := by
  unfold terminate_session
  rw [if_neg (by simp [h])]
  dsimp only
  split
  · rfl
  · rfl
  · rfl

theorem terminate_session_sessions_fail (failClose : List Nat) (sid : Nat)
    (st : ADState) (conns : List Conn)
    (hlk : alookup sid st.droid_sessions = some conns)
    (hfail : sessCloseFails failClose conns = true) :
    (terminate_session failClose sid st).1.droid_sessions = st.droid_sessions := by
  have hmem : sid ∈ akeys st.droid_sessions := mem_akeys_of_alookup hlk
  have hne : st.droid_sessions ≠ [] := by
    intro hc; rw [hc] at hmem; simp [akeys] at hmem
  have hsnd := closeConnList_snd failClose conns st.closed
  rw [hfail] at hsnd
  unfold terminate_session
  rw [if_pos ⟨hne, hmem⟩, hlk]
  dsimp only
  rcases hcc : closeConnList failClose conns st.closed with ⟨closed1, ok⟩
  rw [hcc] at hsnd
  simp only [Bool.not_true] at hsnd
  subst hsnd
  rfl

theorem terminate_session_sessions_ok (failClose : List Nat) (sid : Nat)
    (st : ADState) (conns : List Conn)
    (hlk : alookup sid st.droid_sessions = some conns)
    (hok : sessCloseFails failClose conns = false) :
    (terminate_session failClose sid st).1.droid_sessions =
      aerase sid st.droid_sessions := by
  have hmem : sid ∈ akeys st.droid_sessions := mem_akeys_of_alookup hlk
  have hne : st.droid_sessions ≠ [] := by
    intro hc; rw [hc] at hmem; simp [akeys] at hmem
  have hsnd := closeConnList_snd failClose conns st.closed
  rw [hok] at hsnd
  unfold terminate_session
  rw [if_pos ⟨hne, hmem⟩, hlk]
  dsimp only
  rcases hcc : closeConnList failClose conns st.closed with ⟨closed1, ok⟩
  rw [hcc] at hsnd
  simp only [Bool.not_false] at hsnd
  subst hsnd
  dsimp only
  split
  · rfl
  · rfl
  · rfl

theorem terminate_all_go_preserves (failClose : List Nat) :
    ∀ (ids : List Nat) (st : ADState),
      (terminate_all_go failClose ids st).serial = st.serial ∧
      (terminate_all_go failClose ids st).h_port = st.h_port ∧
      (terminate_all_go failClose ids st).removed_forwards = st.removed_forwards := by
  intro ids
  induction ids with
  | nil => intro st; exact ⟨rfl, rfl, rfl⟩
  | cons sid rest ih =>
    intro st
    have h1 := terminate_session_preserves failClose sid st
    have h2 := ih (terminate_session failClose sid st).1
    simp only [terminate_all_go]
    exact ⟨h2.1.trans h1.1, h2.2.1.trans h1.2.1, h2.2.2.trans h1.2.2⟩

theorem terminate_session_nodup (failClose : List Nat) (sid : Nat) (st : ADState)
    (hnd : (akeys st.droid_sessions).Nodup) :
    (akeys (terminate_session failClose sid st).1.droid_sessions).Nodup := by
  by_cases hmem : sid ∈ akeys st.droid_sessions
  · obtain ⟨conns, hlk⟩ := alookup_isSome_of_mem_akeys hmem
    cases hfail : sessCloseFails failClose conns
    · rw [terminate_session_sessions_ok failClose sid st conns hlk hfail]
      exact (akeys_aerase_sublist sid st.droid_sessions).nodup hnd
    · rw [terminate_session_sessions_fail failClose sid st conns hlk hfail]
      exact hnd
  · rw [terminate_session_sessions_not_mem failClose sid st hmem]
    exact hnd

theorem terminate_all_go_sessions (failClose : List Nat) :
    ∀ (ids : List Nat) (st : ADState), (akeys st.droid_sessions).Nodup →
      (terminate_all_go failClose ids st).droid_sessions =
        st.droid_sessions.filter
          (fun p => decide (p.1 ∉ ids) || sessCloseFails failClose p.2) := by
  intro ids
  induction ids with
  | nil =>
    intro st _
    simp only [terminate_all_go]
    refine (List.filter_eq_self.mpr ?_).symm
    intro p _
    simp
  | cons sid rest ih =>
    intro st hnd
    simp only [terminate_all_go]
    rw [ih _ (terminate_session_nodup failClose sid st hnd)]
    by_cases hmem : sid ∈ akeys st.droid_sessions
    · obtain ⟨conns, hlk⟩ := alookup_isSome_of_mem_akeys hmem
      cases hfail : sessCloseFails failClose conns
      · rw [terminate_session_sessions_ok failClose sid st conns hlk hfail]
        rw [aerase, List.filter_filter]
        apply List.filter_congr
        intro p hp
        by_cases hps : p.1 = sid
        · have hlk2 : alookup p.1 st.droid_sessions = some p.2 :=
            alookup_eq_of_mem_nodup hnd (by simpa using hp)
          rw [hps] at hlk2
          rw [hlk2] at hlk
          have hv : p.2 = conns := by injection hlk
          simp [hps, hv, hfail]
        · simp [hps, List.mem_cons]
      · rw [terminate_session_sessions_fail failClose sid st conns hlk hfail]
        apply List.filter_congr
        intro p hp
        by_cases hps : p.1 = sid
        · have hlk2 : alookup p.1 st.droid_sessions = some p.2 :=
            alookup_eq_of_mem_nodup hnd (by simpa using hp)
          rw [hps] at hlk2
          rw [hlk2] at hlk
          have hv : p.2 = conns := by injection hlk
          simp [hps, hv, hfail]
        · simp [hps, List.mem_cons]
    · rw [terminate_session_sessions_not_mem failClose sid st hmem]
      apply List.filter_congr
      intro p hp
      have hps : p.1 ≠ sid := by
        intro hc
        exact hmem (hc ▸ (by simpa [akeys] using List.mem_map_of_mem Prod.fst hp))
      simp [hps, List.mem_cons]

/-- C3 counterexample state (i): no registered sessions, but an allocated
forwarded host port. -/
def stC3a : ADState :=
  { serial := "a"
    h_port := some 1024
    d_port := 8080
    nextConnId := 0
    droid_sessions := []
    event_dispatchers := []
    closed := []
    removed_forwards := [] }

/-- C3 counterexample state (ii): two sessions, the first of which will
fail to close (its connection id 0 is in the fault set). -/
def stC3b : ADState :=
  { serial := "b"
    h_port := some 1025
    d_port := 8080
    nextConnId := 2
    droid_sessions := [(1, [⟨1, 0⟩]), (2, [⟨2, 1⟩])]
    event_dispatchers := []
    closed := []
    removed_forwards := [] }

/-- C3 counterexample: (i) with no registered session but an allocated
port, `terminate_all_sessions` is a no-op — the port-release block is
nested inside `if self._droid_sessions:`, so `h_port` is neither released
nor reset to `None`, contradicting the claim that it is released
whenever it had been allocated; (ii) when a session's termination raises,
that session remains registered after the call, contradicting the claim
that no session remains registered (the sibling session is removed and
the port released, so the failure is indeed not propagated). -/
theorem terminate_all_sessions_counterexample :
    (terminate_all_sessions [] stC3a).h_port = some 1024 ∧
    (terminate_all_sessions [] stC3a).removed_forwards = [] ∧
    (terminate_all_sessions [0] stC3b).droid_sessions = [(1, [⟨1, 0⟩])] ∧
    (terminate_all_sessions [0] stC3b).h_port = none :=
  ⟨by decide, by decide, by decide, by decide⟩

/-- C3 amended: `terminate_all_sessions` attempts every session that was
registered on entry, swallowing individual termination failures so the
loop always completes: afterwards exactly the sessions whose termination
raised remain registered (so with no injected close faults none remain),
and — provided at least one session was registered on entry — the
forwarded host port, if allocated (and nonzero, Python truthiness), is
released and `h_port` reset to `None`.  With no registered sessions the
call does nothing at all: in particular an allocated port is NOT
released then. -/
theorem terminate_all_sessions_spec (failClose : List Nat) (st : ADState)
    (hnd : (akeys st.droid_sessions).Nodup) :
    (st.droid_sessions = [] → terminate_all_sessions failClose st = st) ∧
    (st.droid_sessions ≠ [] →
      (terminate_all_sessions failClose st).droid_sessions =
        st.droid_sessions.filter (fun p => sessCloseFails failClose p.2) ∧
      (failClose = [] → (terminate_all_sessions failClose st).droid_sessions = []) ∧
      (∀ p, st.h_port = some p → p ≠ 0 →
        (terminate_all_sessions failClose st).h_port = none ∧
        (terminate_all_sessions failClose st).removed_forwards =
          st.removed_forwards ++ [p])) := by
  constructor
  · intro h
    unfold terminate_all_sessions
    rw [if_neg (by simp [h])]
  · intro hne
    have hgo := terminate_all_go_sessions failClose (akeys st.droid_sessions) st hnd
    have hpres := terminate_all_go_preserves failClose (akeys st.droid_sessions) st
    have hfilter : (terminate_all_go failClose (akeys st.droid_sessions) st).droid_sessions =
        st.droid_sessions.filter (fun p => sessCloseFails failClose p.2) := by
      rw [hgo]
      apply List.filter_congr
      intro p hp
      have hpk : p.1 ∈ akeys st.droid_sessions := by
        simpa [akeys] using List.mem_map_of_mem Prod.fst hp
      simp [hpk]
    have hds : (terminate_all_sessions failClose st).droid_sessions =
        (terminate_all_go failClose (akeys st.droid_sessions) st).droid_sessions := by
      unfold terminate_all_sessions
      rw [if_pos hne]
      dsimp only
      split
      · split
        · rfl
        · rfl
      · rfl
    refine ⟨hds.trans hfilter, ?_, ?_⟩
    · intro h0
      rw [hds.trans hfilter]
      subst h0
      apply List.filter_eq_nil_iff.mpr
      intro p _
      simp [sessCloseFails]
    · intro p hp hp0
      have hport : (terminate_all_go failClose (akeys st.droid_sessions) st).h_port =
          some p := hpres.2.1.trans hp
      constructor
      · unfold terminate_all_sessions
        rw [if_pos hne]
        dsimp only
        rw [hport]
        simp [truthyPort, hp0]
      · unfold terminate_all_sessions
        rw [if_pos hne]
        dsimp only
        rw [hport]
        simp [truthyPort, hp0, hpres.2.2]

/-- Witness for the amended C3 at `stC3b` with connection 0 failing to
close: the failing session remains, the other is removed, and the port is
released and logged. -/
theorem terminate_all_sessions_spec_witness :
    (terminate_all_sessions [0] stC3b).droid_sessions =
      stC3b.droid_sessions.filter (fun p => sessCloseFails [0] p.2) ∧
    (terminate_all_sessions [0] stC3b).h_port = none ∧
    (terminate_all_sessions [0] stC3b).removed_forwards =
      stC3b.removed_forwards ++ [1025] :=
  have h := (terminate_all_sessions_spec [0] stC3b (by decide)).2 (by decide)
  ⟨h.1, (h.2.2 1025 (by decide) (by decide)).1, (h.2.2 1025 (by decide) (by decide)).2⟩

/-! ## C9: the per-session connection list -/

theorem alookup_append_of_not_mem {α β : Type} [DecidableEq α] (k : α)
    (l2 : List (α × β)) :
    ∀ l : List (α × β), k ∉ akeys l → alookup k (l ++ l2) = alookup k l2 := by
  intro l
  induction l with
  | nil => intro _; rfl
  | cons p rest ih =>
    intro h
    obtain ⟨k2, v2⟩ := p
    simp only [akeys_cons, List.mem_cons, not_or] at h
    simp [alookup, h.1, ih h.2]

/-- C9 counterexample, step 0: a fresh device state. -/
def stC9a : ADState :=
  { serial := "z"
    h_port := some 7000
    d_port := 8080
    nextConnId := 0
    droid_sessions := []
    event_dispatchers := []
    closed := []
    removed_forwards := [] }

/-- C9 counterexample, step 1: after `start_new_session` assigned uid 5. -/
def stC9b : ADState := (start_new_session (some 5) stC9a).1

/-- C9 counterexample, step 2: after `get_dispatcher` attached the
auxiliary event connection for session 5. -/
def stC9c : ADState := (get_dispatcher false ⟨5, 0⟩ stC9b).1

/-- C9 counterexample: `get_dispatcher` attaches the auxiliary connection
`⟨5, 1⟩` to session 5 (via `add_new_connection_to_session`), yet the
session's registry list still holds only the primary connection — the
source returns the new connection without appending it to
`self._droid_sessions[session_id]`.  Consequently `terminate_session`
iterating the list closes only the primary connection (id 0); the
auxiliary connection (id 1) is closed by the dispatcher's `clean_up`,
not by the list iteration. -/
theorem session_connection_list_counterexample :
    (start_new_session (some 5) stC9a).2 = .ok ⟨5, 0⟩ ∧
    (get_dispatcher false ⟨5, 0⟩ stC9b).2 = .ok ⟨⟨5, 1⟩⟩ ∧
    alookup 5 stC9c.droid_sessions = some [⟨5, 0⟩] ∧
    ((⟨5, 1⟩ : Conn) ∉ ([⟨5, 0⟩] : List Conn)) ∧
    ([(⟨5, 0⟩ : Conn)].map (fun c => c.connId) = [0]) ∧
    (terminate_session [] 5 stC9c).1.closed = [0, 1] :=
  ⟨by rfl, by rfl, by decide, by decide, by decide, by decide⟩

/-- C9 amended: the registry list of a session holds exactly its primary
connection.  `start_new_session` registers the singleton `[primary]`;
`add_new_connection_to_session` hands back the new auxiliary connection
WITHOUT appending it to the session's list; and `terminate_session`
closes, by iterating the list, precisely the listed connections (the
primary), while the dispatcher's auxiliary connection is closed
separately by the dispatcher's own `clean_up`. -/
theorem session_connection_list_spec (st : ADState) (u sid : Nat) :
    (u ∉ akeys st.droid_sessions →
      alookup u (start_new_session (some u) st).1.droid_sessions =
        some [⟨u, st.nextConnId⟩]) ∧
    (∀ (c : Conn) (st2 : ADState),
      add_new_connection_to_session false sid st = (st2, .ok c) →
      st2.droid_sessions = st.droid_sessions) ∧
    (∀ conns : List Conn, alookup sid st.droid_sessions = some conns →
      (terminate_session [] sid st).1.closed =
        st.closed ++ conns.map (fun c => c.connId) ++
          (match alookup (ed_key st.serial sid) st.event_dispatchers with
           | some (some d) => [d.conn.connId]
           | _ => [])) := by
  refine ⟨?_, ?_, ?_⟩
  · intro h
    simp only [start_new_session]
    rw [if_neg (by simpa using h)]
    dsimp only
    rw [aset_eq_append_of_not_mem u _ _ h]
    rw [alookup_append_of_not_mem u _ _ h]
    simp [alookup]
  · intro c st2 h
    simp only [add_new_connection_to_session] at h
    by_cases hm : sid ∈ akeys st.droid_sessions
    · rw [if_neg (by simp [hm]), if_neg (by simp)] at h
      simp only [Prod.mk.injEq] at h
      rw [← h.1]
    · rw [if_pos (by simp [hm])] at h
      simp at h
  · intro conns hlk
    have hmem : sid ∈ akeys st.droid_sessions := mem_akeys_of_alookup hlk
    have hne : st.droid_sessions ≠ [] := by
      intro hc; rw [hc] at hmem; simp [akeys] at hmem
    unfold terminate_session
    rw [if_pos ⟨hne, hmem⟩, hlk]
    dsimp only
    rw [closeConnList_no_fault conns st.closed]
    dsimp only
    split
    next heq => simp [heq]
    next heq => simp [heq]
    next d heq => simp [heq]

/-- Witness for the amended C9 on the concrete states of the
counterexample chain. -/
theorem session_connection_list_spec_witness :
    alookup 5 (start_new_session (some 5) stC9a).1.droid_sessions =
      some [⟨5, 0⟩] ∧
    (∀ (c : Conn) (st2 : ADState),
      add_new_connection_to_session false 5 stC9c = (st2, .ok c) →
      st2.droid_sessions = stC9c.droid_sessions) ∧
    (terminate_session [] 5 stC9c).1.closed =
      stC9c.closed ++ [(⟨5, 0⟩ : Conn)].map (fun c => c.connId) ++ [1] :=
  ⟨(session_connection_list_spec stC9a 5 5).1 (by decide),
   (session_connection_list_spec stC9c 5 5).2.1,
   ((session_connection_list_spec stC9c 5 5).2.2 [⟨5, 0⟩] (by decide)).trans (by rfl)⟩

/-! ## C7: get_droid opens, bootstraps once, retries once -/

/-- Occurrences of an event in a `get_droid` trace. -/
def countEv (e : Ev) : List Ev → Nat
  | [] => 0
  | x :: rest => (if x = e then 1 else 0) + countEv e rest

/-- C7: in `get_droid`, after the port step, if the first session-open
attempt succeeds there is exactly one attempt and the remote bootstrap
(`adb.start_sl4a()`) is never triggered; if the first attempt fails (for
any reason — connection failure or uid collision), the bootstrap is
triggered exactly once and the open is retried exactly once, for exactly
two attempts in total; and if the retry also fails, that second failure
is exactly what `get_droid` returns to the caller — there is no third
attempt. -/
theorem get_droid_retry_contract (inp : GetDroidIn) (he : Bool) (st : ADState) :
    (attempt_fails inp.r1 st = false →
      countEv Ev.session_attempt (get_droid inp he st).1 = 1 ∧
      countEv Ev.start_sl4a (get_droid inp he st).1 = 0) ∧
    (attempt_fails inp.r1 st = true →
      countEv Ev.session_attempt (get_droid inp he st).1 = 2 ∧
      countEv Ev.start_sl4a (get_droid inp he st).1 = 1) ∧
    (attempt_fails inp.r1 st = true → attempt_fails inp.r2 st = true →
      (get_droid inp he st).2.2 = .error (attempt_err inp.r2)) := by
  refine ⟨?_, ?_, ?_⟩
  · intro hf
    rcases hr1 : inp.r1 with _ | u1
    · rw [hr1] at hf; simp [attempt_fails] at hf
    · rw [hr1] at hf
      have hm1 : u1 ∉ akeys st.droid_sessions := by
        simpa [attempt_fails] using hf
      unfold get_droid
      simp only [start_new_session, hr1]
      split_ifs with hport <;>
        simp only [hm1, if_false, if_neg hm1] <;>
        (first
          | (split <;> simp [countEv])
          | simp [countEv])
  · intro hf
    rcases hr1 : inp.r1 with _ | u1
    · unfold get_droid
      simp only [start_new_session, hr1]
      rcases hr2 : inp.r2 with _ | u2
      · split_ifs with hport <;> simp [countEv]
      · by_cases hm2 : u2 ∈ akeys st.droid_sessions
        · split_ifs with hport <;>
            simp only [hm2, if_true, if_pos hm2] <;> simp [countEv]
        · split_ifs with hport <;>
            simp only [hm2, if_false, if_neg hm2] <;>
            (first
              | (split <;> simp [countEv])
              | simp [countEv])
    · rw [hr1] at hf
      have hm1 : u1 ∈ akeys st.droid_sessions := by
        simpa [attempt_fails] using hf
      unfold get_droid
      simp only [start_new_session, hr1]
      rcases hr2 : inp.r2 with _ | u2
      · split_ifs with hport <;>
          simp only [hm1, if_true, if_pos hm1] <;> simp [countEv]
      · by_cases hm2 : u2 ∈ akeys st.droid_sessions
        · split_ifs with hport <;>
            simp only [hm1, hm2, if_true, if_pos hm1, if_pos hm2] <;> simp [countEv]
        · split_ifs with hport <;>
            simp only [hm1, hm2, if_true, if_false, if_pos hm1, if_neg hm2] <;>
            (first
              | (split <;> simp [countEv])
              | simp [countEv])
  · intro hf1 hf2
    rcases hr1 : inp.r1 with _ | u1
    · unfold get_droid
      simp only [start_new_session, hr1]
      rcases hr2 : inp.r2 with _ | u2
      · split_ifs with hport <;> simp [attempt_err]
      · rw [hr2] at hf2
        have hm2 : u2 ∈ akeys st.droid_sessions := by
          simpa [attempt_fails] using hf2
        split_ifs with hport <;>
          simp only [hm2, if_true, if_pos hm2] <;> simp [attempt_err]
    · rw [hr1] at hf1
      have hm1 : u1 ∈ akeys st.droid_sessions := by
        simpa [attempt_fails] using hf1
      unfold get_droid
      simp only [start_new_session, hr1]
      rcases hr2 : inp.r2 with _ | u2
      · split_ifs with hport <;>
          simp only [hm1, if_true, if_pos hm1] <;> simp [attempt_err]
      · rw [hr2] at hf2
        have hm2 : u2 ∈ akeys st.droid_sessions := by
          simpa [attempt_fails] using hf2
        split_ifs with hport <;>
          simp only [hm1, hm2, if_true, if_pos hm1, if_pos hm2] <;> simp [attempt_err]

/-- Witness for C7 on a fresh device: a first-attempt connection failure
followed by a successful retry gives two attempts with one bootstrap;
two connection failures propagate the second failure. -/
theorem get_droid_retry_contract_witness :
    (countEv Ev.session_attempt
        (get_droid ⟨true, 1024, none, some 4, false⟩ true stC9a).1 = 2 ∧
     countEv Ev.start_sl4a
        (get_droid ⟨true, 1024, none, some 4, false⟩ true stC9a).1 = 1) ∧
    (get_droid ⟨true, 1024, none, none, false⟩ true stC9a).2.2 =
      .error (attempt_err none) :=
  ⟨(get_droid_retry_contract ⟨true, 1024, none, some 4, false⟩ true stC9a).2.1 (by decide),
   (get_droid_retry_contract ⟨true, 1024, none, none, false⟩ true stC9a).2.2
     (by decide) (by decide)⟩

/-! ## C1: batch bring-up rollback -/

/-- A device state left fully rolled back: no logcat collector running, no
session registered, no dispatcher cached. -/
def rolled_back (ad : ADFull) : Prop :=
  ad.adb_logcat_process = none ∧ ad.st.droid_sessions = [] ∧
  ad.st.event_dispatchers = []

/-- Every state `bring_up` can succeed with: logcat running over either
the fresh sl4a state (the `skip_sl4a` path) or exactly one session with
its primary connection and one cached dispatcher. -/
theorem bring_up_ok_shape (cfg : DevCfg) (ad : ADFull) (h : bring_up cfg = .ok ad) :
    ad = ⟨(initAD cfg).st, some 1⟩ ∨
    ∃ u, ad = ⟨⟨cfg.serial, some cfg.gdIn.freshPort, 8080, 2,
        [(u, [⟨u, 0⟩])], [(cfg.serial ++ toString u, some ⟨⟨u, 1⟩⟩)], [], []⟩,
      some 1⟩ := by
  unfold bring_up at h
  by_cases hlog : cfg.failLogcat
  · rw [if_pos hlog] at h; cases h
  · rw [if_neg hlog] at h
    by_cases hskip : cfg.skip_sl4a
    · rw [if_pos hskip] at h
      cases h
      exact Or.inl rfl
    · rw [if_neg hskip] at h
      unfold get_droid at h
      by_cases hed : cfg.failEdStart
      · by_cases hcf : cfg.gdIn.connectFails
        · rcases hr1 : cfg.gdIn.r1 with _ | u1
          · rcases hr2 : cfg.gdIn.r2 with _ | u2 <;>
              simp [initAD, truthyPort, start_new_session, get_dispatcher,
                add_new_connection_to_session, ed_key, aset, akeys, alookup,
                hr1, hr2, hcf, hed] at h
          · simp [initAD, truthyPort, start_new_session, get_dispatcher,
              add_new_connection_to_session, ed_key, aset, akeys, alookup,
              hr1, hcf, hed] at h
        · rcases hr1 : cfg.gdIn.r1 with _ | u1
          · rcases hr2 : cfg.gdIn.r2 with _ | u2 <;>
              simp [initAD, truthyPort, start_new_session, get_dispatcher,
                add_new_connection_to_session, ed_key, aset, akeys, alookup,
                hr1, hr2, hcf, hed] at h
          · simp [initAD, truthyPort, start_new_session, get_dispatcher,
              add_new_connection_to_session, ed_key, aset, akeys, alookup,
              hr1, hcf, hed] at h
      · by_cases hcf : cfg.gdIn.connectFails
        · rcases hr1 : cfg.gdIn.r1 with _ | u1
          · rcases hr2 : cfg.gdIn.r2 with _ | u2 <;>
              simp [initAD, truthyPort, start_new_session, get_dispatcher,
                add_new_connection_to_session, ed_key, aset, akeys, alookup,
                hr1, hr2, hcf, hed] at h
          · simp [initAD, truthyPort, start_new_session, get_dispatcher,
              add_new_connection_to_session, ed_key, aset, akeys, alookup,
              hr1, hcf, hed] at h
        · rcases hr1 : cfg.gdIn.r1 with _ | u1
          · rcases hr2 : cfg.gdIn.r2 with _ | u2
            · simp [initAD, truthyPort, start_new_session, get_dispatcher,
                add_new_connection_to_session, ed_key, aset, akeys, alookup,
                hr1, hr2, hcf, hed] at h
            · simp [initAD, truthyPort, start_new_session, get_dispatcher,
                add_new_connection_to_session, ed_key, aset, akeys, alookup,
                hr1, hr2, hcf, hed] at h
              exact Or.inr ⟨u2, h.symm⟩
          · simp [initAD, truthyPort, start_new_session, get_dispatcher,
              add_new_connection_to_session, ed_key, aset, akeys, alookup,
              hr1, hcf, hed] at h
            exact Or.inr ⟨u1, h.symm⟩

/-- Destroying any device that `bring_up` activated leaves it fully
rolled back: logcat stopped, session registry and dispatcher registry
empty. -/
theorem bring_up_ok_rolled (cfg : DevCfg) (ad : ADFull) (h : bring_up cfg = .ok ad) :
    rolled_back (destroyOne ad) := by
  rcases bring_up_ok_shape cfg ad h with hcase | ⟨u, hcase⟩ <;> subst hcase
  · simp [destroyOne, terminate_all_sessions, initAD, rolled_back]
  · simp only [rolled_back, destroyOne, terminate_all_sessions, terminate_all_go,
      terminate_session, akeys, alookup, aerase, closeConnList, ed_key, truthyPort]
    simp [akeys, alookup, aerase, closeConnList, terminate_session, ed_key]
    split <;> simp

/-- Every failure of `bring_up` leaves the failing device with its logcat
collector stopped and any cached dispatcher cleaned up (its auxiliary
connection closed), and propagates exactly one of the two batch error
messages, naming the device.  (Note what is absent: nothing empties the
failing device's session registry.) -/
theorem bring_up_error_shape (cfg : DevCfg) (adF : ADFull) (msg : String)
    (h : bring_up cfg = .error (adF, msg)) :
    adF.adb_logcat_process = none ∧
    (msg = "Failed to start logcat " ++ cfg.serial ∨
     msg = "Failed to start sl4a on " ++ cfg.serial) ∧
    (∀ (key : String) (d : Dispatcher), (key, some d) ∈ adF.st.event_dispatchers →
      d.conn.connId ∈ adF.st.closed) := by
  unfold bring_up at h
  by_cases hlog : cfg.failLogcat
  · rw [if_pos hlog] at h
    simp only [cleanup_current, initAD, ed, isort, akeys, alookup,
      Except.error.injEq, Prod.mk.injEq] at h
    obtain ⟨h1, h2⟩ := h
    subst h1
    subst h2
    exact ⟨rfl, Or.inl rfl, by intro key d hmem; simp at hmem⟩
  · rw [if_neg hlog] at h
    by_cases hskip : cfg.skip_sl4a
    · rw [if_pos hskip] at h; cases h
    · rw [if_neg hskip] at h
      unfold get_droid at h
      by_cases hed : cfg.failEdStart
      · by_cases hcf : cfg.gdIn.connectFails
        · rcases hr1 : cfg.gdIn.r1 with _ | u1
          · rcases hr2 : cfg.gdIn.r2 with _ | u2 <;>
              (simp [initAD, truthyPort, start_new_session, get_dispatcher,
                 add_new_connection_to_session, ed_key, aset, akeys, alookup,
                 cleanup_current, ed, isort, insertLe, aerase,
                 hr1, hr2, hcf, hed] at h;
               obtain ⟨h1, h2⟩ := h;
               subst h1;
               subst h2;
               exact ⟨rfl, Or.inr rfl, by intro key d hmem; simp at hmem⟩)
          · simp [initAD, truthyPort, start_new_session, get_dispatcher,
              add_new_connection_to_session, ed_key, aset, akeys, alookup,
              cleanup_current, ed, isort, insertLe, aerase,
              hr1, hcf, hed] at h
            obtain ⟨h1, h2⟩ := h
            subst h1
            subst h2
            exact ⟨rfl, Or.inr rfl, by intro key d hmem; simp at hmem⟩
        · rcases hr1 : cfg.gdIn.r1 with _ | u1
          · rcases hr2 : cfg.gdIn.r2 with _ | u2
            · simp [initAD, truthyPort, start_new_session, get_dispatcher,
                add_new_connection_to_session, ed_key, aset, akeys, alookup,
                cleanup_current, ed, isort, insertLe, aerase,
                hr1, hr2, hcf, hed] at h
              obtain ⟨h1, h2⟩ := h
              subst h1
              subst h2
              exact ⟨rfl, Or.inr rfl, by intro key d hmem; simp at hmem⟩
            · simp [initAD, truthyPort, start_new_session, get_dispatcher,
                add_new_connection_to_session, ed_key, aset, akeys, alookup,
                cleanup_current, ed, isort, insertLe, aerase,
                hr1, hr2, hcf, hed] at h
              obtain ⟨h1, h2⟩ := h
              subst h1
              subst h2
              refine ⟨rfl, Or.inr rfl, ?_⟩
              intro key d hmem
              simp only [List.mem_singleton, Prod.mk.injEq, Option.some.injEq] at hmem
              simp [hmem.2]
          · simp [initAD, truthyPort, start_new_session, get_dispatcher,
              add_new_connection_to_session, ed_key, aset, akeys, alookup,
              cleanup_current, ed, isort, insertLe, aerase,
              hr1, hcf, hed] at h
            obtain ⟨h1, h2⟩ := h
            subst h1
            subst h2
            refine ⟨rfl, Or.inr rfl, ?_⟩
            intro key d hmem
            simp only [List.mem_singleton, Prod.mk.injEq, Option.some.injEq] at hmem
            simp [hmem.2]
      · by_cases hcf : cfg.gdIn.connectFails
        · rcases hr1 : cfg.gdIn.r1 with _ | u1
          · rcases hr2 : cfg.gdIn.r2 with _ | u2 <;>
              (simp [initAD, truthyPort, start_new_session, get_dispatcher,
                 add_new_connection_to_session, ed_key, aset, akeys, alookup,
                 cleanup_current, ed, isort, insertLe, aerase,
                 hr1, hr2, hcf, hed] at h;
               obtain ⟨h1, h2⟩ := h;
               subst h1;
               subst h2;
               exact ⟨rfl, Or.inr rfl, by intro key d hmem; simp at hmem⟩)
          · simp [initAD, truthyPort, start_new_session, get_dispatcher,
              add_new_connection_to_session, ed_key, aset, akeys, alookup,
              cleanup_current, ed, isort, insertLe, aerase,
              hr1, hcf, hed] at h
            obtain ⟨h1, h2⟩ := h
            subst h1
            subst h2
            exact ⟨rfl, Or.inr rfl, by intro key d hmem; simp at hmem⟩
        · rcases hr1 : cfg.gdIn.r1 with _ | u1
          · rcases hr2 : cfg.gdIn.r2 with _ | u2
            · simp [initAD, truthyPort, start_new_session, get_dispatcher,
                add_new_connection_to_session, ed_key, aset, akeys, alookup,
                cleanup_current, ed, isort, insertLe, aerase,
                hr1, hr2, hcf, hed] at h
              obtain ⟨h1, h2⟩ := h
              subst h1
              subst h2
              exact ⟨rfl, Or.inr rfl, by intro key d hmem; simp at hmem⟩
            · simp [initAD, truthyPort, start_new_session, get_dispatcher,
                add_new_connection_to_session, ed_key, aset, akeys, alookup,
                hr1, hr2, hcf, hed] at h
          · simp [initAD, truthyPort, start_new_session, get_dispatcher,
              add_new_connection_to_session, ed_key, aset, akeys, alookup,
              hr1, hcf, hed] at h

theorem createGo_error_decomp :
    ∀ (cfgs : List DevCfg) (active : List ADFull) (sts : List ADFull) (msg : String),
      (∀ ad ∈ active, ∃ cfg, bring_up cfg = .ok ad) →
      createGo active cfgs = (sts, some msg) →
      ∃ (j : Nat) (adF : ADFull) (pre : List ADFull),
        j < cfgs.length ∧ pre.length = active.length + j ∧
        sts = pre ++ adF :: (cfgs.drop (j + 1)).map initAD ∧
        (∀ x ∈ pre, rolled_back x) ∧
        bring_up (cfgs.getD j default) = .error (adF, msg) := by
  intro cfgs
  induction cfgs with
  | nil =>
    intro active sts msg _ h
    simp [createGo] at h
  | cons cfg rest ih =>
    intro active sts msg hinv h
    simp only [createGo] at h
    cases hbu : bring_up cfg with
    | error p =>
      obtain ⟨adF0, msg0⟩ := p
      rw [hbu] at h
      simp only [Prod.mk.injEq, Option.some.injEq] at h
      obtain ⟨h1, h2⟩ := h
      subst h2
      refine ⟨0, adF0, active.reverse.map destroyOne, by simp, by simp, ?_, ?_, ?_⟩
      · rw [← h1]; simp
      · intro x hx
        simp only [List.mem_map, List.mem_reverse] at hx
        obtain ⟨ad2, had2, rfl⟩ := hx
        obtain ⟨cfg2, hcfg2⟩ := hinv ad2 had2
        exact bring_up_ok_rolled cfg2 ad2 hcfg2
      · simpa using hbu
    | ok ad =>
      rw [hbu] at h
      obtain ⟨j, adF, pre, hj, hlen, hsts, hroll, hbu2⟩ :=
        ih (ad :: active) sts msg (by
          intro ad2 had2
          rcases List.mem_cons.mp had2 with rfl | had2
          · exact ⟨cfg, hbu⟩
          · exact hinv ad2 had2) h
      refine ⟨j + 1, adF, pre, by simpa using Nat.succ_lt_succ hj, ?_, ?_, hroll, ?_⟩
      · simp only [List.length_cons] at hlen
        omega
      · simpa using hsts
      · simpa using hbu2

/-- C1 amended: whenever `create` over a batch of configured devices
propagates a failure, there is a failing position `k`: every device
before `k` has been activated and then fully rolled back (logcat
stopped, session registry and dispatcher registry empty); every device
after `k` is still exactly in its freshly-constructed state (never
started); exactly one batch-level error propagates, naming device `k`
with one of the two batch messages; and device `k` itself has its logcat
collector stopped and every dispatcher it cached cleaned up (the
dispatcher's connection closed) — but, unlike the original claim, a
session that had already been opened on device `k` is NOT terminated and
remains in its registry (see the counterexample). -/
theorem create_batch_failure_rollback (cfgs : List DevCfg) (sts : List ADFull)
    (msg : String) (h : create cfgs = (sts, some msg)) :
    ∃ (k : Nat) (adF : ADFull) (pre : List ADFull),
      k < cfgs.length ∧ pre.length = k ∧
      sts = pre ++ adF :: (cfgs.drop (k + 1)).map initAD ∧
      (∀ x ∈ pre, rolled_back x) ∧
      bring_up (cfgs.getD k default) = .error (adF, msg) ∧
      adF.adb_logcat_process = none ∧
      (msg = "Failed to start logcat " ++ (cfgs.getD k default).serial ∨
       msg = "Failed to start sl4a on " ++ (cfgs.getD k default).serial) ∧
      (∀ (key : String) (d : Dispatcher),
        (key, some d) ∈ adF.st.event_dispatchers → d.conn.connId ∈ adF.st.closed) := by
  obtain ⟨j, adF, pre, hj, hlen, hsts, hroll, hbu⟩ :=
    createGo_error_decomp cfgs [] sts msg (by intro ad had; cases had) h
  obtain ⟨hproc, hmsg, hdisp⟩ := bring_up_error_shape _ _ _ hbu
  exact ⟨j, adF, pre, hj, by simpa using hlen, hsts, hroll, hbu, hproc, hmsg, hdisp⟩

/-- C1 counterexample configuration: a single device whose logcat and
session open succeed but whose dispatcher connection fails. -/
def cfgC1bad : DevCfg :=
  { serial := "a"
    skip_sl4a := false
    failLogcat := false
    gdIn := { avail := true, freshPort := 1024, r1 := some 0, r2 := none,
              connectFails := true }
    failEdStart := false }

/-- C1 counterexample: bring-up of this one-device batch fails while
establishing the event dispatcher, after the sl4a session was already
opened.  A single batch error propagates — but the failing device is left
half-started: its session (uid 0) is still registered and its forwarded
host port is still allocated.  This refutes the claim that the k-th
device is never left half-started and that the caller never receives
partially-active sl4a state. -/
theorem create_half_started_counterexample :
    (create [cfgC1bad]).2 = some "Failed to start sl4a on a" ∧
    ((create [cfgC1bad]).1.getD 0 default).st.droid_sessions =
      [(0, [⟨0, 0⟩])] ∧
    ((create [cfgC1bad]).1.getD 0 default).st.h_port = some 1024 ∧
    ((create [cfgC1bad]).1.getD 0 default).st.closed = [] :=
  ⟨by decide, by decide, by decide, by decide⟩

/-- The three-device batch of the spec scenario: device 2's log-collector
start fails. -/
def cfgsC1w : List DevCfg :=
  [{ serial := "d1", skip_sl4a := false, failLogcat := false,
     gdIn := { avail := true, freshPort := 1024, r1 := some 3, r2 := none,
               connectFails := false },
     failEdStart := false },
   { serial := "d2", skip_sl4a := false, failLogcat := true,
     gdIn := { avail := true, freshPort := 1025, r1 := some 4, r2 := none,
               connectFails := false },
     failEdStart := false },
   { serial := "d3", skip_sl4a := false, failLogcat := false,
     gdIn := { avail := true, freshPort := 1026, r1 := some 5, r2 := none,
               connectFails := false },
     failEdStart := false }]

/-- Witness for the amended C1 on the spec scenario (3 devices, device 2
fails to start its log collector): obtained by applying the theorem at
the concrete batch. -/
theorem create_batch_failure_rollback_witness :
    ∃ (k : Nat) (adF : ADFull) (pre : List ADFull),
      k < cfgsC1w.length ∧ pre.length = k ∧
      (create cfgsC1w).1 = pre ++ adF :: (cfgsC1w.drop (k + 1)).map initAD ∧
      (∀ x ∈ pre, rolled_back x) ∧
      bring_up (cfgsC1w.getD k default) = .error (adF, "Failed to start logcat d2") ∧
      adF.adb_logcat_process = none ∧
      ("Failed to start logcat d2" = "Failed to start logcat " ++ (cfgsC1w.getD k default).serial ∨
       "Failed to start logcat d2" = "Failed to start sl4a on " ++ (cfgsC1w.getD k default).serial) ∧
      (∀ (key : String) (d : Dispatcher),
        (key, some d) ∈ adF.st.event_dispatchers → d.conn.connId ∈ adF.st.closed) :=
  create_batch_failure_rollback cfgsC1w (create cfgsC1w).1
    "Failed to start logcat d2" (by rfl)

end AndroidDeviceModel
